import Mathlib

/-
  Shallow embedding of the TransAct front-end (repository FMitF_rs):
  the arena-based AST, the AST-builder passes of `src/ast/ast_builder.rs`,
  and the semantic analyzer / type inferrer of
  `src/ast/semantics_analysis.rs`, together with theorems settling the
  frozen claims C1-C10.

  Modelling conventions:
  * Arenas (`id_arena::Arena<T>`) are Lean lists; a typed id is the index
    of the entity at allocation time (`alloc` appends).  Rust's infallible
    arena indexing is totalized with `List.getD` and an `Inhabited`
    default; all claims only exercise in-bounds indices.
  * Source spans are elided everywhere: no claim depends on spans, and
    `SpannedError` is modelled by its `error : AstError` component.
  * The `f64` payload of float literals is elided: the analyzer and the
    type inferrer never inspect it, and floating-point values are outside
    the embedding.
  * Rust `HashMap` is an association list whose `insert` overwrites the
    previous binding and whose `lookup` finds the newest binding.
  * The recursion of `check_expression` / `check_statement` /
    `infer_expression_type` over arena indices is totalized with an
    explicit fuel parameter; the builder only ever produces
    topologically-sorted arenas (children are allocated before parents),
    so any fuel exceeding the arena size computes the Rust behaviour.
  * Mutable analyzer state is passed explicitly: the error vector becomes
    the returned error list (pushes become appends, in order), the
    `current_node` / `return_type` / `in_loop` fields become a context
    record, and `has_return` becomes a boolean result.
-/

namespace FMitF

/-- Base value types of TransAct (`TypeName` in the Rust AST). -/
inductive TypeName where
  | Int
  | Float
  | String
  | Bool
deriving DecidableEq, Repr, Inhabited

/-- Function return types; `Ty` models the Rust variant `ReturnType::Type`. -/
inductive ReturnType where
  | Void
  | Ty (t : TypeName)
deriving DecidableEq, Repr, Inhabited

/-- Unary operators `-` and `!`. -/
inductive UnaryOp where
  | Neg
  | Not
deriving DecidableEq, Repr, Inhabited

/-- Binary operators of the expression grammar. -/
inductive BinaryOp where
  | Add
  | Sub
  | Mul
  | Div
  | Eq
  | Neq
  | Lt
  | Lte
  | Gt
  | Gte
  | And
  | Or
deriving DecidableEq, Repr, Inhabited

/-- The error taxonomy (`AstError` in `src/ast/errors.rs`, whose
declaration is not under `src/`; the variants and their payloads are
reconstructed from every construction site in the two source files and
from the spec's error taxonomy, section 7).  Spans are elided. -/
inductive AstError where
  | ParseError (message : String)
  | UndeclaredNode (name : String)
  | UndeclaredTable (name : String)
  | UndeclaredField (table : String) (field : String)
  | UndeclaredVariable (name : String)
  | DuplicateVariable (name : String)
  | DuplicateTable (name : String)
  | DuplicateFunction (name : String)
  | DuplicateNode (name : String)
  | TypeMismatch (expected : TypeName) (found : TypeName)
  | InvalidCondition (found : TypeName)
  | InvalidUnaryOp (op : String) (operand : TypeName)
  | InvalidBinaryOp (op : String) (left : TypeName) (right : TypeName)
  | CrossNodeAccess (table : String) (table_node : String) (current_node : String)
  | AbortNotInFirstHop (function : String) (hop_index : Nat)
  | BreakOutsideLoop
  | ContinueOutsideLoop
  | MissingReturn (function : String)
  | MissingReturnValue
  | UnexpectedReturnValue
  | InvalidPrimaryKey (table : String) (column : String)
deriving DecidableEq, Repr, Inhabited

/-- A compute/storage node declaration. -/
structure NodeDef where
  name : String
deriving DecidableEq, Repr, Inhabited

/-- A table field declaration. -/
structure FieldDeclaration where
  field_type : TypeName
  field_name : String
  is_primary : Bool
deriving DecidableEq, Repr, Inhabited

/-- A table declaration; `node` is the owning `NodeId`, `fields` and
`primary_keys` are lists of `FieldId`. -/
structure TableDeclaration where
  name : String
  node : Nat
  fields : List Nat
  primary_keys : List Nat
deriving DecidableEq, Repr, Inhabited

/-- A function parameter declaration. -/
structure ParameterDecl where
  param_type : TypeName
  param_name : String
deriving DecidableEq, Repr, Inhabited

/-- A hop block: the textual node name, the statement list and the
resolution slot filled by name resolution. -/
structure HopBlock where
  node_name : String
  statements : List Nat
  resolved_node : Option Nat
deriving DecidableEq, Repr, Inhabited

/-- A function declaration with its parameter and hop id lists. -/
structure FunctionDeclaration where
  return_type : ReturnType
  name : String
  parameters : List Nat
  hops : List Nat
deriving DecidableEq, Repr, Inhabited

/-- A local variable introduced by a declaration or a parameter (the
`ScopeId` of its introduction is elided: the analyzer only reads `ty`). -/
structure Variable where
  name : String
  ty : TypeName
deriving DecidableEq, Repr, Inhabited

/-- A lexical scope (only allocated, never read, by the code under
`src/`). -/
structure Scope where
  parent : Option Nat
deriving DecidableEq, Repr, Inhabited

/-- Expression kinds; `UnaryOp`, `BinaryOp` and `TableFieldAccess` carry
the mutable `resolved_type` slot written by the type inferrer. -/
inductive ExpressionKind where
  | Ident (name : String)
  | IntLit (value : Int)
  | FloatLit
  | StringLit (value : String)
  | BoolLit (value : Bool)
  | UnaryOp (op : UnaryOp) (expr : Nat) (resolved_type : Option TypeName)
  | BinaryOp (left : Nat) (op : BinaryOp) (right : Nat) (resolved_type : Option TypeName)
  | TableFieldAccess (table_name : String) (pk_fields : List String)
      (pk_exprs : List Nat) (field_name : String)
      (resolved_table : Option Nat) (resolved_pk_fields : List (Option Nat))
      (resolved_field : Option Nat) (resolved_type : Option TypeName)
deriving DecidableEq, Repr, Inhabited

/-- An expression arena entry (span elided). -/
structure Expression where
  node : ExpressionKind
deriving DecidableEq, Repr, Inhabited

/-- A variable declaration statement `T x = e;`. -/
structure VarDeclStatement where
  var_type : TypeName
  var_name : String
  init_value : Nat
deriving DecidableEq, Repr, Inhabited

/-- An assignment to an already-declared local `x = e;`. -/
structure VarAssignmentStatement where
  var_name : String
  rhs : Nat
  resolved_var : Option Nat
deriving DecidableEq, Repr, Inhabited

/-- A single table-field assignment `T[k1=e1, ...].f = e;`. -/
structure AssignmentStatement where
  table_name : String
  pk_fields : List String
  pk_exprs : List Nat
  field_name : String
  rhs : Nat
  resolved_table : Option Nat
  resolved_pk_fields : List (Option Nat)
  resolved_field : Option Nat
deriving DecidableEq, Repr, Inhabited

/-- One `f = e` pair of a multi-assignment. -/
structure MultiAssignmentPair where
  field_name : String
  rhs : Nat
  resolved_field : Option Nat
deriving DecidableEq, Repr, Inhabited

/-- A multi-assignment `T[k1=e1, ...].{f1 = e1, f2 = e2, ...};`. -/
structure MultiAssignmentStatement where
  table_name : String
  pk_fields : List String
  pk_exprs : List Nat
  assignments : List MultiAssignmentPair
  resolved_table : Option Nat
  resolved_pk_fields : List (Option Nat)
deriving DecidableEq, Repr, Inhabited

/-- An `if` statement with optional `else` branch. -/
structure IfStatement where
  condition : Nat
  then_branch : List Nat
  else_branch : Option (List Nat)
deriving DecidableEq, Repr, Inhabited

/-- A `while` statement. -/
structure WhileStatement where
  condition : Nat
  body : List Nat
deriving DecidableEq, Repr, Inhabited

/-- A `return` statement with optional value. -/
structure ReturnStatement where
  value : Option Nat
deriving DecidableEq, Repr, Inhabited

/-- Statement kinds of the arena AST. -/
inductive StatementKind where
  | Assignment (a : AssignmentStatement)
  | MultiAssignment (a : MultiAssignmentStatement)
  | VarAssignment (a : VarAssignmentStatement)
  | IfStmt (i : IfStatement)
  | WhileStmt (w : WhileStatement)
  | VarDecl (v : VarDeclStatement)
  | Return (r : ReturnStatement)
  | Abort
  | Break
  | Continue
  | Empty
deriving DecidableEq, Repr, Inhabited

/-- A statement arena entry (span elided). -/
structure Statement where
  node : StatementKind
deriving DecidableEq, Repr, Inhabited

/-- The arena-based program (`Program` in the Rust AST), with the
cross-cutting name maps and resolution maps. -/
structure Program where
  nodes : List NodeDef
  node_map : List (String × Nat)
  root_nodes : List Nat
  tables : List TableDeclaration
  table_map : List (String × Nat)
  root_tables : List Nat
  fields : List FieldDeclaration
  functions : List FunctionDeclaration
  function_map : List (String × Nat)
  root_functions : List Nat
  hops : List HopBlock
  parameters : List ParameterDecl
  statements : List Statement
  expressions : List Expression
  vars : List Variable
  scopes : List Scope
  resolutions : List (Nat × Nat)
  var_types : List (Nat × TypeName)
deriving DecidableEq, Repr, Inhabited

/-- The empty program produced by `Program::new()`. -/
def Program.empty : Program :=
  { nodes := [], node_map := [], root_nodes := [], tables := [],
    table_map := [], root_tables := [], fields := [], functions := [],
    function_map := [], root_functions := [], hops := [], parameters := [],
    statements := [], expressions := [], vars := [], scopes := [],
    resolutions := [], var_types := [] }

/-- Arena indexing, totalized with the default entry. -/
def Program.nodeD (p : Program) (i : Nat) : NodeDef := p.nodes.getD i default

/-- Arena indexing into the table arena. -/
def Program.tableD (p : Program) (i : Nat) : TableDeclaration := p.tables.getD i default

/-- Arena indexing into the field arena. -/
def Program.fieldD (p : Program) (i : Nat) : FieldDeclaration := p.fields.getD i default

/-- Arena indexing into the function arena. -/
def Program.funcD (p : Program) (i : Nat) : FunctionDeclaration := p.functions.getD i default

/-- Arena indexing into the hop arena. -/
def Program.hopD (p : Program) (i : Nat) : HopBlock := p.hops.getD i default

/-- Arena indexing into the statement arena. -/
def Program.stmtD (p : Program) (i : Nat) : Statement := p.statements.getD i default

/-- Arena indexing into the expression arena. -/
def Program.exprD (p : Program) (i : Nat) : Expression := p.expressions.getD i default

/-- Arena indexing into the variable arena. -/
def Program.varD (p : Program) (i : Nat) : Variable := p.vars.getD i default

/-- `HashMap::insert`: the new binding shadows any previous one. -/
def mapInsert (m : List (String × Nat)) (k : String) (v : Nat) : List (String × Nat) :=
  (k, v) :: m.filter (fun kv => kv.1 != k)

/-! ## Semantic analyzer (`src/ast/semantics_analysis.rs`) -/

/-- The implicit widening rule (`types_compatible`, lines 741-743):
`expected == actual || (expected == Float && actual == Int)`. -/
def typesCompatible (expected actual : TypeName) : Bool :=
  expected == actual || (expected == TypeName.Float && actual == TypeName.Int)

/-- Rust `matches!(t, TypeName::Int | TypeName::Float)`. -/
def isNumericType (t : TypeName) : Bool :=
  t == TypeName.Int || t == TypeName.Float

/-- The string `format!("{:?}", op)` of the Rust `Debug` derive. -/
def BinaryOp.debugStr : BinaryOp → String
  | .Add => "Add"
  | .Sub => "Sub"
  | .Mul => "Mul"
  | .Div => "Div"
  | .Eq => "Eq"
  | .Neq => "Neq"
  | .Lt => "Lt"
  | .Lte => "Lte"
  | .Gt => "Gt"
  | .Gte => "Gte"
  | .And => "And"
  | .Or => "Or"

/-- `check_binary_op` (lines 655-732): typing of one binary operator
given the operand types. -/
def checkBinaryOp (op : BinaryOp) (left right : TypeName) :
    List AstError × Option TypeName :=
  match op with
  | .Add | .Sub | .Mul | .Div =>
    if isNumericType left && isNumericType right then
      if left == TypeName.Float || right == TypeName.Float then
        ([], some TypeName.Float)
      else
        ([], some TypeName.Int)
    else
      ([AstError.InvalidBinaryOp op.debugStr left right], none)
  | .Eq | .Neq =>
    if typesCompatible left right then
      ([], some TypeName.Bool)
    else
      ([AstError.InvalidBinaryOp op.debugStr left right], none)
  | .Lt | .Lte | .Gt | .Gte =>
    if isNumericType left && isNumericType right then
      ([], some TypeName.Bool)
    else
      ([AstError.InvalidBinaryOp op.debugStr left right], none)
  | .And | .Or =>
    if left == TypeName.Bool && right == TypeName.Bool then
      ([], some TypeName.Bool)
    else
      ([AstError.InvalidBinaryOp op.debugStr left right], none)

/-- The analyzer context: the fields of `SemanticAnalyzer` that are set
around a region and restored (the error vector and `has_return` are
returned instead; `current_function` and `current_hop` are only ever
read through `hop_index` / `function_name` parameters). -/
structure AnalyzerCtx where
  current_node : Option Nat
  return_type : Option ReturnType
  in_loop : Bool
deriving DecidableEq, Repr, Inhabited

/-- The message of the primary-key arity error. -/
def pkCountMsg (table : String) (required provided : Nat) : String :=
  "Table " ++ table ++ " requires " ++ toString required ++
    " primary key values, but " ++ toString provided ++ " were provided"

/-- The first provided primary-key field id that is not one of the
table's primary keys (the Rust validity loops return on the first hit). -/
def firstInvalidPk (table_obj : TableDeclaration) (resolved : List (Option Nat)) :
    Option Nat :=
  resolved.findSome? fun o =>
    match o with
    | some id => if table_obj.primary_keys.contains id then none else some id
    | none => none

/-- The tail of `check_expression`'s `TableFieldAccess` arm after the
cross-node check (lines 545-602): resolvedness of the primary keys,
their validity, the arity check, and the accessed field's type.  This
part makes no recursive call. -/
def checkTableFieldAccessTail (p : Program) (table_obj : TableDeclaration)
    (table_name field_name : String) (resolved_pk_fields : List (Option Nat))
    (resolved_field : Option Nat) : List AstError × Option TypeName :=
  if ¬ (∀ o ∈ resolved_pk_fields, o.isSome) then
    ([], none)
  else
    match firstInvalidPk table_obj resolved_pk_fields with
    | some pk_field_id =>
      ([AstError.InvalidPrimaryKey table_obj.name (p.fieldD pk_field_id).field_name], none)
    | none =>
      if table_obj.primary_keys.length ≠ resolved_pk_fields.length then
        ([AstError.ParseError
            (pkCountMsg table_obj.name table_obj.primary_keys.length
              resolved_pk_fields.length)], none)
      else
        match resolved_field with
        | none => ([AstError.UndeclaredField table_name field_name], none)
        | some field_id => ([], some (p.fieldD field_id).field_type)

mutual

/-- `check_expression` (lines 485-653).  Returns the errors pushed during
the call (in push order) and the `Option<TypeName>` result. -/
def checkExpression (p : Program) (ctx : AnalyzerCtx) (fuel : Nat) (eid : Nat) :
    List AstError × Option TypeName :=
  match fuel with
  | 0 => ([], none)
  | fuel + 1 =>
    match (p.exprD eid).node with
    | .Ident _ =>
      match (p.resolutions).lookup eid with
      | some var_id => ([], some (p.varD var_id).ty)
      | none => ([], none)
    | .IntLit _ => ([], some TypeName.Int)
    | .FloatLit => ([], some TypeName.Float)
    | .StringLit _ => ([], some TypeName.String)
    | .BoolLit _ => ([], some TypeName.Bool)
    | .TableFieldAccess table_name _pkf pk_exprs field_name resolved_table
        resolved_pk_fields resolved_field _rt =>
      let pkErrs := checkExpressionList p ctx fuel pk_exprs
      match resolved_table with
      | none => (pkErrs ++ [AstError.UndeclaredTable table_name], none)
      | some table_id =>
        let table_obj := p.tableD table_id
        match ctx.current_node with
        | some current_node_id =>
          if table_obj.node ≠ current_node_id then
            (pkErrs ++ [AstError.CrossNodeAccess table_obj.name
                (p.nodeD table_obj.node).name (p.nodeD current_node_id).name], none)
          else
            let tail := checkTableFieldAccessTail p table_obj table_name field_name
              resolved_pk_fields resolved_field
            (pkErrs ++ tail.1, tail.2)
        | none =>
          let tail := checkTableFieldAccessTail p table_obj table_name field_name
            resolved_pk_fields resolved_field
          (pkErrs ++ tail.1, tail.2)
    | .UnaryOp op inner _rt =>
      match checkExpression p ctx fuel inner with
      | (errs, none) => (errs, none)
      | (errs, some operand_type) =>
        match op with
        | .Neg =>
          if isNumericType operand_type then
            (errs, some operand_type)
          else
            (errs ++ [AstError.InvalidUnaryOp "negation" operand_type], none)
        | .Not =>
          if operand_type == TypeName.Bool then
            (errs, some TypeName.Bool)
          else
            (errs ++ [AstError.InvalidUnaryOp "logical not" operand_type], none)
    | .BinaryOp left op right _rt =>
      match checkExpression p ctx fuel left with
      | (lerrs, none) => (lerrs, none)
      | (lerrs, some left_type) =>
        match checkExpression p ctx fuel right with
        | (rerrs, none) => (lerrs ++ rerrs, none)
        | (rerrs, some right_type) =>
          let res := checkBinaryOp op left_type right_type
          (lerrs ++ rerrs ++ res.1, res.2)
termination_by structural fuel

/-- The `for pk_expr in pk_exprs { self.check_expression(*pk_expr); }`
loop of the `TableFieldAccess` arm: errors accumulate, types are
discarded. -/
def checkExpressionList (p : Program) (ctx : AnalyzerCtx) (fuel : Nat)
    (es : List Nat) : List AstError :=
  match fuel with
  | 0 => []
  | fuel + 1 =>
    match es with
    | [] => []
    | e :: rest => (checkExpression p ctx fuel e).1 ++ checkExpressionList p ctx fuel rest
termination_by structural fuel

end

/-- The primary-key validation loops of `check_assignment` (lines
258-290) and `check_multi_assignment` (lines 354-386): walk the resolved
pk fields paired (by `enumerate`) with the pk expressions; an invalid
primary key aborts the whole enclosing check (second component `true`),
a type mismatch merely accumulates. -/
def checkPkFields (p : Program) (ctx : AnalyzerCtx) (fuel : Nat)
    (table : TableDeclaration) :
    List (Option Nat) → List Nat → List AstError × Bool
  | [], _ => ([], false)
  | some pk_field_id :: rest, exprs =>
    if ¬ (table.primary_keys.contains pk_field_id) then
      ([AstError.InvalidPrimaryKey table.name (p.fieldD pk_field_id).field_name], true)
    else
      let here :=
        match exprs.head? with
        | some pk_expr =>
          match checkExpression p ctx fuel pk_expr with
          | (perrs, some pk_type) =>
            perrs ++
              (if typesCompatible (p.fieldD pk_field_id).field_type pk_type then []
               else [AstError.TypeMismatch (p.fieldD pk_field_id).field_type pk_type])
          | (perrs, none) => perrs
        | none => []
      let rest2 := checkPkFields p ctx fuel table rest exprs.tail
      (here ++ rest2.1, rest2.2)
  | none :: rest, exprs => checkPkFields p ctx fuel table rest exprs.tail

/-- The body of `check_assignment` after the cross-node check (lines
252-319): requires every pk field and the assigned field resolved, then
validates primary keys, arity, and the right-hand side's type. -/
def checkAssignmentBody (p : Program) (ctx : AnalyzerCtx) (fuel : Nat)
    (assign : AssignmentStatement) (table : TableDeclaration) : List AstError :=
  match assign.resolved_field, decide (∀ o ∈ assign.resolved_pk_fields, o.isSome) with
  | some field_id, true =>
    match checkPkFields p ctx fuel table assign.resolved_pk_fields assign.pk_exprs with
    | (errs, true) => errs
    | (errs, false) =>
      if table.primary_keys.length ≠ assign.resolved_pk_fields.length then
        errs ++ [AstError.ParseError
          (pkCountMsg table.name table.primary_keys.length
            assign.resolved_pk_fields.length)]
      else
        match checkExpression p ctx fuel assign.rhs with
        | (rerrs, some rhs_type) =>
          errs ++ rerrs ++
            (if typesCompatible (p.fieldD field_id).field_type rhs_type then []
             else [AstError.TypeMismatch (p.fieldD field_id).field_type rhs_type])
        | (rerrs, none) => errs ++ rerrs
  | _, _ => []

/-- `check_assignment` (lines 226-321): table resolution, the cross-node
check (which short-circuits), then `checkAssignmentBody`. -/
def checkAssignment (p : Program) (ctx : AnalyzerCtx) (fuel : Nat)
    (assign : AssignmentStatement) : List AstError :=
  match assign.resolved_table with
  | none => [AstError.UndeclaredTable assign.table_name]
  | some table_id =>
    let table := p.tableD table_id
    match ctx.current_node with
    | some current_node_id =>
      if table.node ≠ current_node_id then
        [AstError.CrossNodeAccess table.name (p.nodeD table.node).name
          (p.nodeD current_node_id).name]
      else
        checkAssignmentBody p ctx fuel assign table
    | none => checkAssignmentBody p ctx fuel assign table

/-- The per-pair loop of `check_multi_assignment` (lines 402-418). -/
def checkMultiAssignList (p : Program) (ctx : AnalyzerCtx) (fuel : Nat) :
    List MultiAssignmentPair → List AstError
  | [] => []
  | a :: rest =>
    let here :=
      match a.resolved_field with
      | some field_id =>
        match checkExpression p ctx fuel a.rhs with
        | (rerrs, some rhs_type) =>
          rerrs ++
            (if typesCompatible (p.fieldD field_id).field_type rhs_type then []
             else [AstError.TypeMismatch (p.fieldD field_id).field_type rhs_type])
        | (rerrs, none) => rerrs
      | none => []
    here ++ checkMultiAssignList p ctx fuel rest

/-- The body of `check_multi_assignment` after the cross-node check
(lines 349-419). -/
def checkMultiAssignmentBody (p : Program) (ctx : AnalyzerCtx) (fuel : Nat)
    (m : MultiAssignmentStatement) (table : TableDeclaration) : List AstError :=
  if (m.resolved_pk_fields.all fun o => o.isSome) &&
      (m.assignments.all fun a => a.resolved_field.isSome) then
    match checkPkFields p ctx fuel table m.resolved_pk_fields m.pk_exprs with
    | (errs, true) => errs
    | (errs, false) =>
      if table.primary_keys.length ≠ m.resolved_pk_fields.length then
        errs ++ [AstError.ParseError
          (pkCountMsg table.name table.primary_keys.length
            m.resolved_pk_fields.length)]
      else
        errs ++ checkMultiAssignList p ctx fuel m.assignments
  else []

/-- `check_multi_assignment` (lines 323-421). -/
def checkMultiAssignment (p : Program) (ctx : AnalyzerCtx) (fuel : Nat)
    (m : MultiAssignmentStatement) : List AstError :=
  match m.resolved_table with
  | none => [AstError.UndeclaredTable m.table_name]
  | some table_id =>
    let table := p.tableD table_id
    match ctx.current_node with
    | some current_node_id =>
      if table.node ≠ current_node_id then
        [AstError.CrossNodeAccess table.name (p.nodeD table.node).name
          (p.nodeD current_node_id).name]
      else
        checkMultiAssignmentBody p ctx fuel m table
    | none => checkMultiAssignmentBody p ctx fuel m table

/-- `check_var_assignment` (lines 423-433): only the right-hand side is
checked; no compatibility check against the variable's declared type is
performed (the Rust body's comments say so explicitly). -/
def checkVarAssignment (p : Program) (ctx : AnalyzerCtx) (fuel : Nat)
    (va : VarAssignmentStatement) : List AstError :=
  (checkExpression p ctx fuel va.rhs).1

/-- `check_var_decl` (lines 435-448). -/
def checkVarDecl (p : Program) (ctx : AnalyzerCtx) (fuel : Nat)
    (v : VarDeclStatement) : List AstError :=
  match checkExpression p ctx fuel v.init_value with
  | (errs, some init_type) =>
    errs ++
      (if typesCompatible v.var_type init_type then []
       else [AstError.TypeMismatch v.var_type init_type])
  | (errs, none) => errs

/-- `check_return_statement` (lines 450-483), minus the `has_return`
write, which the caller records. -/
def checkReturnStatement (p : Program) (ctx : AnalyzerCtx) (fuel : Nat)
    (r : ReturnStatement) : List AstError :=
  match ctx.return_type, r.value with
  | some ReturnType.Void, some _ => [AstError.UnexpectedReturnValue]
  | some (ReturnType.Ty expected), some expr_id =>
    (match checkExpression p ctx fuel expr_id with
     | (errs, some actual) =>
       errs ++
         (if typesCompatible expected actual then []
          else [AstError.TypeMismatch expected actual])
     | (errs, none) => errs)
  | some (ReturnType.Ty _), none => [AstError.MissingReturnValue]
  | some ReturnType.Void, none => []
  | none, _ => []

/-- `check_abort_statement` (lines 146-156). -/
def checkAbortStatement (hop_index : Nat) (function_name : String) : List AstError :=
  if hop_index ≠ 0 then
    [AstError.AbortNotInFirstHop function_name hop_index]
  else []

/-- The condition check shared by `check_if_statement` and
`check_while_statement` (lines 165-171, 193-199). -/
def checkCondition (p : Program) (ctx : AnalyzerCtx) (fuel : Nat)
    (cond : Nat) : List AstError :=
  match checkExpression p ctx fuel cond with
  | (errs, some cond_type) =>
    errs ++ (if cond_type ≠ TypeName.Bool then [AstError.InvalidCondition cond_type] else [])
  | (errs, none) => errs

mutual

/-- `check_statement` (lines 122-144): dispatch on the statement kind.
The boolean result records whether a `return` statement was checked
(the analyzer's `has_return` flag). -/
def checkStatement (p : Program) (ctx : AnalyzerCtx) (fuel : Nat)
    (sid : Nat) (hop_index : Nat) (function_name : String) :
    List AstError × Bool :=
  match fuel with
  | 0 => ([], false)
  | fuel + 1 =>
    match (p.stmtD sid).node with
    | .Assignment a => (checkAssignment p ctx fuel a, false)
    | .MultiAssignment a => (checkMultiAssignment p ctx fuel a, false)
    | .VarAssignment a => (checkVarAssignment p ctx fuel a, false)
    | .IfStmt i => checkIfStatement p ctx fuel i hop_index function_name
    | .WhileStmt w => checkWhileStatement p ctx fuel w hop_index function_name
    | .VarDecl v => (checkVarDecl p ctx fuel v, false)
    | .Return r => (checkReturnStatement p ctx fuel r, true)
    | .Abort => (checkAbortStatement hop_index function_name, false)
    | .Break => (if ctx.in_loop then [] else [AstError.BreakOutsideLoop], false)
    | .Continue => (if ctx.in_loop then [] else [AstError.ContinueOutsideLoop], false)
    | .Empty => ([], false)
termination_by structural fuel

/-- A statement block: errors concatenate, `has_return` flags or. -/
def checkStatements (p : Program) (ctx : AnalyzerCtx) (fuel : Nat)
    (sids : List Nat) (hop_index : Nat) (function_name : String) :
    List AstError × Bool :=
  match fuel with
  | 0 => ([], false)
  | fuel + 1 =>
    match sids with
    | [] => ([], false)
    | s :: rest =>
      let r1 := checkStatement p ctx fuel s hop_index function_name
      let r2 := checkStatements p ctx fuel rest hop_index function_name
      (r1.1 ++ r2.1, r1.2 || r2.2)
termination_by structural fuel

/-- `check_if_statement` (lines 158-184). -/
def checkIfStatement (p : Program) (ctx : AnalyzerCtx) (fuel : Nat)
    (i : IfStatement) (hop_index : Nat) (function_name : String) :
    List AstError × Bool :=
  match fuel with
  | 0 => ([], false)
  | fuel + 1 =>
    let condErrs := checkCondition p ctx fuel i.condition
    let r1 := checkStatements p ctx fuel i.then_branch hop_index function_name
    let r2 :=
      match i.else_branch with
      | some els => checkStatements p ctx fuel els hop_index function_name
      | none => ([], false)
    (condErrs ++ r1.1 ++ r2.1, r1.2 || r2.2)
termination_by structural fuel

/-- `check_while_statement` (lines 186-212): the body is checked with
`in_loop := true`; the context restoration is implicit in the functional
style. -/
def checkWhileStatement (p : Program) (ctx : AnalyzerCtx) (fuel : Nat)
    (w : WhileStatement) (hop_index : Nat) (function_name : String) :
    List AstError × Bool :=
  match fuel with
  | 0 => ([], false)
  | fuel + 1 =>
    let condErrs := checkCondition p ctx fuel w.condition
    let r1 := checkStatements p { ctx with in_loop := true } fuel w.body hop_index
      function_name
    (condErrs ++ r1.1, r1.2)
termination_by structural fuel

end

/-- `check_hop_block` (lines 102-117): sets `current_node` from the
hop's resolution slot and checks each statement. -/
def checkHopBlock (p : Program) (fuel : Nat) (return_type : Option ReturnType)
    (hop_id : Nat) (hop_index : Nat) (function_name : String) :
    List AstError × Bool :=
  let hop := p.hopD hop_id
  let ctx : AnalyzerCtx :=
    { current_node := hop.resolved_node, return_type := return_type, in_loop := false }
  checkStatements p ctx fuel hop.statements hop_index function_name

/-- The `for (hop_index, hop_id) in func.hops.iter().enumerate()` loop of
`check_function`. -/
def checkHops (p : Program) (fuel : Nat) (return_type : Option ReturnType)
    (hops : List Nat) (idx : Nat) (function_name : String) :
    List AstError × Bool :=
  match hops with
  | [] => ([], false)
  | h :: rest =>
    let r1 := checkHopBlock p fuel return_type h idx function_name
    let r2 := checkHops p fuel return_type rest (idx + 1) function_name
    (r1.1 ++ r2.1, r1.2 || r2.2)

/-- `check_function` (lines 82-100): check every hop, then require a
`return` somewhere when the return type is non-void. -/
def checkFunction (p : Program) (fuel : Nat) (func_id : Nat) : List AstError :=
  let func := p.funcD func_id
  let r := checkHops p fuel (some func.return_type) func.hops 0 func.name
  r.1 ++
    (match func.return_type with
     | ReturnType.Ty _ => if ¬ r.2 then [AstError.MissingReturn func.name] else []
     | ReturnType.Void => [])

/-- The `check_functions` loop over `root_functions`. -/
def checkFunctionsList (p : Program) (fuel : Nat) : List Nat → List AstError
  | [] => []
  | f :: rest => checkFunction p fuel f ++ checkFunctionsList p fuel rest

/-- A fuel bound sufficient for every arena produced by the AST builder
(children are allocated strictly before their parents, so nesting depth
is bounded by the arena sizes). -/
def programFuel (p : Program) : Nat :=
  2 * (p.statements.length + p.expressions.length) + 8

/-- The full error list of `analyze_program`, in discovery order. -/
def analyzeProgramErrors (p : Program) : List AstError :=
  checkFunctionsList p (programFuel p) p.root_functions

/-- `analyze_program` (lines 746-750): `Ok(())` exactly when no error
was accumulated. -/
def analyzeProgram (p : Program) : Except (List AstError) Unit :=
  match analyzeProgramErrors p with
  | [] => Except.ok ()
  | errs => Except.error errs

/-! ## AST builder (`src/ast/ast_builder.rs`)

The pest grammar and parser live outside `src/`;  `SourceProgram` below
models the content of the parse tree the builder consumes (one
constructor per grammar production reaching the builder).  Literal
lexing errors (`"Invalid integer"` / `"Invalid float"`) are below the
abstraction: the source tree already carries parsed values. -/

/-- One field declaration of a table production. -/
structure FieldSrc where
  is_primary : Bool
  field_type : TypeName
  field_name : String
deriving DecidableEq, Repr, Inhabited

/-- One table declaration production. -/
structure TableSrc where
  name : String
  node_name : String
  fields : List FieldSrc
deriving DecidableEq, Repr, Inhabited

/-- Expression productions (after precedence climbing). -/
inductive ExprSrc where
  | Ident (name : String)
  | IntLit (value : Int)
  | FloatLit
  | StringLit (value : String)
  | BoolLit (value : Bool)
  | Unary (op : UnaryOp) (e : ExprSrc)
  | Binary (l : ExprSrc) (op : BinaryOp) (r : ExprSrc)
  | TFA (table : String) (pks : List (String × ExprSrc)) (field : String)

/-- Statement productions. -/
inductive StmtSrc where
  | VarDecl (t : TypeName) (n : String) (init : ExprSrc)
  | VarAssign (n : String) (rhs : ExprSrc)
  | Assign (table : String) (pks : List (String × ExprSrc)) (field : String) (rhs : ExprSrc)
  | MultiAssign (table : String) (pks : List (String × ExprSrc))
      (assigns : List (String × ExprSrc))
  | If (c : ExprSrc) (t : List StmtSrc) (e : Option (List StmtSrc))
  | While (c : ExprSrc) (b : List StmtSrc)
  | Return (v : Option ExprSrc)
  | Abort
  | Break
  | Continue
  | Empty

/-- One hop block production. -/
structure HopSrc where
  node_name : String
  body : List StmtSrc

/-- One function declaration production. -/
structure FuncSrc where
  return_type : ReturnType
  name : String
  params : List (TypeName × String)
  hops : List HopSrc

/-- A whole `program` production: the nodes block, the table
declarations, the function declarations. -/
structure SourceProgram where
  nodes : List String
  tables : List TableSrc
  functions : List FuncSrc

/-- Arena allocation (`Arena::alloc`): append, return the fresh id. -/
def allocExpression (p : Program) (k : ExpressionKind) : Program × Nat :=
  ({ p with expressions := p.expressions ++ [{ node := k }] }, p.expressions.length)

/-- Allocation into the statement arena. -/
def allocStatement (p : Program) (k : StatementKind) : Program × Nat :=
  ({ p with statements := p.statements ++ [{ node := k }] }, p.statements.length)

/-- Allocation into the node arena. -/
def allocNode (p : Program) (n : NodeDef) : Program × Nat :=
  ({ p with nodes := p.nodes ++ [n] }, p.nodes.length)

/-- Allocation into the table arena. -/
def allocTable (p : Program) (t : TableDeclaration) : Program × Nat :=
  ({ p with tables := p.tables ++ [t] }, p.tables.length)

/-- Allocation into the field arena. -/
def allocField (p : Program) (f : FieldDeclaration) : Program × Nat :=
  ({ p with fields := p.fields ++ [f] }, p.fields.length)

/-- Allocation into the function arena. -/
def allocFunction (p : Program) (f : FunctionDeclaration) : Program × Nat :=
  ({ p with functions := p.functions ++ [f] }, p.functions.length)

/-- Allocation into the hop arena. -/
def allocHop (p : Program) (h : HopBlock) : Program × Nat :=
  ({ p with hops := p.hops ++ [h] }, p.hops.length)

/-- Allocation into the parameter arena. -/
def allocParameter (p : Program) (d : ParameterDecl) : Program × Nat :=
  ({ p with parameters := p.parameters ++ [d] }, p.parameters.length)

mutual

/-- `build_expression` and its per-rule helpers (lines 538-834):
children are allocated strictly before their parent; every resolution
slot starts out `none`. -/
def buildExpression (p : Program) : ExprSrc → Program × Nat
  | .Ident n => allocExpression p (.Ident n)
  | .IntLit v => allocExpression p (.IntLit v)
  | .FloatLit => allocExpression p .FloatLit
  | .StringLit s => allocExpression p (.StringLit s)
  | .BoolLit b => allocExpression p (.BoolLit b)
  | .Unary op e =>
    let r := buildExpression p e
    allocExpression r.1 (.UnaryOp op r.2 none)
  | .Binary l op r0 =>
    let rl := buildExpression p l
    let rr := buildExpression rl.1 r0
    allocExpression rr.1 (.BinaryOp rl.2 op rr.2 none)
  | .TFA table pks field =>
    let r := buildPkList p pks
    allocExpression r.1 (.TableFieldAccess table r.2.1 r.2.2 field none
      (List.replicate r.2.1.length none) none none)

/-- `build_primary_key_list` (lines 471-490). -/
def buildPkList (p : Program) : List (String × ExprSrc) → Program × (List String × List Nat)
  | [] => (p, ([], []))
  | (name, e) :: rest =>
    let r1 := buildExpression p e
    let r2 := buildPkList r1.1 rest
    (r2.1, (name :: r2.2.1, r1.2 :: r2.2.2))

end

/-- `build_multi_assignment_list` (lines 447-468). -/
def buildMultiAssignList (p : Program) : List (String × ExprSrc) → Program × List MultiAssignmentPair
  | [] => (p, [])
  | (f, e) :: rest =>
    let r1 := buildExpression p e
    let r2 := buildMultiAssignList r1.1 rest
    (r2.1, { field_name := f, rhs := r1.2, resolved_field := none } :: r2.2)

mutual

/-- `build_statement` and the per-kind builders (lines 319-535). -/
def buildStatement (p : Program) : StmtSrc → Program × Nat
  | .VarDecl t n init =>
    let r := buildExpression p init
    allocStatement r.1 (.VarDecl { var_type := t, var_name := n, init_value := r.2 })
  | .VarAssign n rhs =>
    let r := buildExpression p rhs
    allocStatement r.1 (.VarAssignment { var_name := n, rhs := r.2, resolved_var := none })
  | .Assign table pks field rhs =>
    let rp := buildPkList p pks
    let rr := buildExpression rp.1 rhs
    allocStatement rr.1 (.Assignment
      { table_name := table, pk_fields := rp.2.1, pk_exprs := rp.2.2,
        field_name := field, rhs := rr.2, resolved_table := none,
        resolved_pk_fields := List.replicate rp.2.1.length none,
        resolved_field := none })
  | .MultiAssign table pks assigns =>
    let rp := buildPkList p pks
    let ra := buildMultiAssignList rp.1 assigns
    allocStatement ra.1 (.MultiAssignment
      { table_name := table, pk_fields := rp.2.1, pk_exprs := rp.2.2,
        assignments := ra.2, resolved_table := none,
        resolved_pk_fields := List.replicate rp.2.1.length none })
  | .If c t e =>
    let rc := buildExpression p c
    let rt := buildBlock rc.1 t
    (match e with
     | some els =>
       let re := buildBlock rt.1 els
       allocStatement re.1 (.IfStmt { condition := rc.2, then_branch := rt.2, else_branch := some re.2 })
     | none =>
       allocStatement rt.1 (.IfStmt { condition := rc.2, then_branch := rt.2, else_branch := none }))
  | .While c b =>
    let rc := buildExpression p c
    let rb := buildBlock rc.1 b
    allocStatement rb.1 (.WhileStmt { condition := rc.2, body := rb.2 })
  | .Return v =>
    (match v with
     | some e =>
       let r := buildExpression p e
       allocStatement r.1 (.Return { value := some r.2 })
     | none => allocStatement p (.Return { value := none }))
  | .Abort => allocStatement p .Abort
  | .Break => allocStatement p .Break
  | .Continue => allocStatement p .Continue
  | .Empty => allocStatement p .Empty

/-- `build_block` (lines 307-316). -/
def buildBlock (p : Program) : List StmtSrc → Program × List Nat
  | [] => (p, [])
  | s :: rest =>
    let r1 := buildStatement p s
    let r2 := buildBlock r1.1 rest
    (r2.1, r1.2 :: r2.2)

end

/-- `build_hop_block` (lines 283-304): the resolution slot starts `none`. -/
def buildHopBlock (p : Program) (h : HopSrc) : Program × Nat :=
  let r := buildBlock p h.body
  allocHop r.1 { node_name := h.node_name, statements := r.2, resolved_node := none }

/-- The hop loop of `build_function_declaration`. -/
def buildHopList (p : Program) : List HopSrc → Program × List Nat
  | [] => (p, [])
  | h :: rest =>
    let r1 := buildHopBlock p h
    let r2 := buildHopList r1.1 rest
    (r2.1, r1.2 :: r2.2)

/-- `build_parameter_list` (lines 251-280). -/
def buildParameterList (p : Program) : List (TypeName × String) → Program × List Nat
  | [] => (p, [])
  | (t, n) :: rest =>
    let r1 := allocParameter p { param_type := t, param_name := n }
    let r2 := buildParameterList r1.1 rest
    (r2.1, r1.2 :: r2.2)

/-- `build_function_declaration` (lines 208-248).  In the typed source
model this pass cannot fail (its only error paths are unreachable
grammar variants and literal lexing errors). -/
def buildFunctionDeclaration (p : Program) (f : FuncSrc) : Program :=
  let rp := buildParameterList p f.params
  let rh := buildHopList rp.1 f.hops
  let r := allocFunction rh.1
    { return_type := f.return_type, name := f.name, parameters := rp.2, hops := rh.2 }
  { r.1 with function_map := mapInsert r.1.function_map f.name r.2,
             root_functions := r.1.root_functions ++ [r.2] }

/-- The field loop of `build_table_declaration`: returns the field ids
and the ids flagged primary, in declaration order. -/
def buildFieldList (p : Program) : List FieldSrc → Program × (List Nat × List Nat)
  | [] => (p, ([], []))
  | f :: rest =>
    let r1 := allocField p
      { field_type := f.field_type, field_name := f.field_name, is_primary := f.is_primary }
    let r2 := buildFieldList r1.1 rest
    (r2.1, (r1.2 :: r2.2.1, if f.is_primary then r1.2 :: r2.2.2 else r2.2.2))

/-- `build_table_declaration` (lines 120-177): owning-node lookup first
(an unresolved node aborts the table before the fields are even built),
then the fields, then the at-least-one-primary-key check. -/
def buildTableDeclaration (p : Program) (t : TableSrc) : Program × List AstError :=
  match p.node_map.lookup t.node_name with
  | none => (p, [AstError.UndeclaredNode t.node_name])
  | some node_id =>
    let r := buildFieldList p t.fields
    if r.2.2.isEmpty then
      (r.1, [AstError.ParseError
        ("Table " ++ t.name ++ " must have at least one primary key")])
    else
      let ra := allocTable r.1
        { name := t.name, node := node_id, fields := r.2.1, primary_keys := r.2.2 }
      ({ ra.1 with table_map := mapInsert ra.1.table_map t.name ra.2,
                   root_tables := ra.1.root_tables ++ [ra.2] }, [])

/-- `build_node_list` (lines 101-118): every identifier is allocated and
inserted; a duplicate name silently overwrites the `node_map` binding
and no error is ever produced. -/
def buildNodeList (p : Program) : List String → Program
  | [] => p
  | n :: rest =>
    let r := allocNode p { name := n }
    buildNodeList
      { r.1 with node_map := mapInsert r.1.node_map n r.2,
                 root_nodes := r.1.root_nodes ++ [r.2] } rest

/-- The second pass of `build_program`: per-table errors accumulate and
the pass continues. -/
def buildTablesPass (p : Program) : List TableSrc → Program × List AstError
  | [] => (p, [])
  | t :: rest =>
    let r1 := buildTableDeclaration p t
    let r2 := buildTablesPass r1.1 rest
    (r2.1, r1.2 ++ r2.2)

/-- The third pass of `build_program`. -/
def buildFunctionsPass (p : Program) : List FuncSrc → Program
  | [] => p
  | f :: rest => buildFunctionsPass (buildFunctionDeclaration p f) rest

/-- `build_program` (lines 53-88) as reached through `parse_and_build`
(lines 865-883): three passes, error accumulation across tables, a
`Program` only when no error occurred. -/
def buildProgram (src : SourceProgram) : Except (List AstError) Program :=
  let p1 := buildNodeList Program.empty src.nodes
  let r2 := buildTablesPass p1 src.tables
  let p3 := buildFunctionsPass r2.1 src.functions
  match r2.2 with
  | [] => Except.ok p3
  | errs => Except.error errs

/-! ## Type inferrer (`TypeInferrer`, lines 767-939) -/

/-- The `resolved_type` slot of an expression (for the three kinds that
carry one). -/
def getResolvedTypeSlot (e : Expression) : Option TypeName :=
  match e.node with
  | .UnaryOp _ _ rt => rt
  | .BinaryOp _ _ _ rt => rt
  | .TableFieldAccess _ _ _ _ _ _ _ rt => rt
  | _ => none

/-- `get_expression_type` (lines 779-809): the currently-known type of
an expression, without mutation; a table-field access falls back to its
resolved field's declared type. -/
def getExpressionType (p : Program) (eid : Nat) : Option TypeName :=
  match (p.exprD eid).node with
  | .Ident _ =>
    (match p.resolutions.lookup eid with
     | some var_id => some (p.varD var_id).ty
     | none => none)
  | .IntLit _ => some TypeName.Int
  | .FloatLit => some TypeName.Float
  | .StringLit _ => some TypeName.String
  | .BoolLit _ => some TypeName.Bool
  | .TableFieldAccess _ _ _ _ _ _ resolved_field rt =>
    (match rt with
     | some ty => some ty
     | none => resolved_field.map fun fid => (p.fieldD fid).field_type)
  | .UnaryOp _ _ rt => rt
  | .BinaryOp _ _ _ rt => rt

/-- `infer_unary_result_type` (lines 812-821). -/
def inferUnaryResultType (op : UnaryOp) (operand_type : Option TypeName) : TypeName :=
  match op with
  | .Not => TypeName.Bool
  | .Neg => operand_type.getD TypeName.Int

/-- `infer_binary_result_type` (lines 824-847). -/
def inferBinaryResultType (op : BinaryOp) (left right : Option TypeName) : TypeName :=
  match op with
  | .Eq | .Neq | .Lt | .Lte | .Gt | .Gte => TypeName.Bool
  | .And | .Or => TypeName.Bool
  | .Add | .Sub | .Mul | .Div =>
    match left, right with
    | some TypeName.Float, _ => TypeName.Float
    | _, some TypeName.Float => TypeName.Float
    | _, _ => TypeName.Int

/-- Write `some ty` into an expression's `resolved_type` slot; literals
and identifiers are left unchanged (the `_ => {}` arm of the write). -/
def setResolvedTypeSlot (e : Expression) (ty : TypeName) : Expression :=
  match e.node with
  | .UnaryOp op inner _ => { node := .UnaryOp op inner (some ty) }
  | .BinaryOp l op r _ => { node := .BinaryOp l op r (some ty) }
  | .TableFieldAccess a b c d e2 f g _ => { node := .TableFieldAccess a b c d e2 f g (some ty) }
  | _ => e

/-- The in-place slot update of `infer_expression_type` (lines 918-935). -/
def writeResolvedType (p : Program) (eid : Nat) (ty : TypeName) : Program :=
  { p with expressions := p.expressions.set eid (setResolvedTypeSlot (p.exprD eid) ty) }

/-- `infer_expression_type` (lines 874-938), with fuel for the recursion
on operand ids (the Rust recursion terminates because built arenas are
topologically sorted).  An expression that already has a known type is
returned unchanged - in particular no slot is written in that case. -/
def inferExpressionType (p : Program) (fuel : Nat) (eid : Nat) :
    Program × Option TypeName :=
  match fuel with
  | 0 => (p, none)
  | fuel + 1 =>
    match getExpressionType p eid with
    | some existing => (p, some existing)
    | none =>
      match (p.exprD eid).node with
      | .Ident _ =>
        (p, match p.resolutions.lookup eid with
            | some var_id => some (p.varD var_id).ty
            | none => none)
      | .IntLit _ => (p, some TypeName.Int)
      | .FloatLit => (p, some TypeName.Float)
      | .StringLit _ => (p, some TypeName.String)
      | .BoolLit _ => (p, some TypeName.Bool)
      | .TableFieldAccess _ _ _ _ _ _ resolved_field _ =>
        (match resolved_field with
         | some fid =>
           (writeResolvedType p eid (p.fieldD fid).field_type,
            some (p.fieldD fid).field_type)
         | none => (p, none))
      | .UnaryOp op inner _ =>
        let r := inferExpressionType p fuel inner
        let ty := inferUnaryResultType op r.2
        (writeResolvedType r.1 eid ty, some ty)
      | .BinaryOp l op rgt _ =>
        let r1 := inferExpressionType p fuel l
        let r2 := inferExpressionType r1.1 fuel rgt
        let ty := inferBinaryResultType op r1.2 r2.2
        (writeResolvedType r2.1 eid ty, some ty)

/-- Fuel sufficient for one `infer_expression_type` call on a built
arena. -/
def inferFuel (p : Program) : Nat := p.expressions.length + 1

/-- One pass of `infer_types`' outer loop over all expression ids,
tracking whether some expression newly became typed. -/
def runInferPass (fuel : Nat) (p : Program) : List Nat → Program × Bool
  | [] => (p, false)
  | id :: rest =>
    let had := (getExpressionType p id).isSome
    let p1 := (inferExpressionType p fuel id).1
    let has := (getExpressionType p1 id).isSome
    let r := runInferPass fuel p1 rest
    (r.1, (!had && has) || r.2)

/-- The `for _pass in 0..max_passes` loop with its early exit when a
pass makes no progress. -/
def inferTypesLoop (fuel : Nat) (ids : List Nat) (p : Program) : Nat → Program
  | 0 => p
  | passes + 1 =>
    let r := runInferPass fuel p ids
    if r.2 then inferTypesLoop fuel ids r.1 passes else r.1

/-- `infer_types` (lines 849-872): up to three passes over every
expression id. -/
def inferTypes (p : Program) : Program :=
  inferTypesLoop (inferFuel p) (List.range p.expressions.length) p 3

/-- `analyze_program_with_types` (lines 753-765): semantic analysis,
then type inference.  The Rust function mutates the program in place
and returns `Ok(())`; the model returns the mutated program. -/
def analyzeProgramWithTypes (p : Program) : Except (List AstError) Program :=
  match analyzeProgramErrors p with
  | [] => Except.ok (inferTypes p)
  | errs => Except.error errs

/-! ## Auxiliary definitions for the claim theorems -/

/-- Whether an error is a `TypeMismatch`. -/
def isTypeMismatchErr : AstError → Bool
  | .TypeMismatch _ _ => true
  | _ => false

/-- The `CrossNodeAccess` error a construct on table id `tid` inside a
hop on node id `n` would produce. -/
def crossErrFor (p : Program) (tid n : Nat) : AstError :=
  AstError.CrossNodeAccess (p.tableD tid).name (p.nodeD (p.tableD tid).node).name
    (p.nodeD n).name

/-! ### Concrete programs used by witnesses and counterexamples.

Name resolution is not part of the code under `src/` (only the passes in
`ast_builder.rs` and `semantics_analysis.rs` are); the concrete programs
below are therefore written directly in arena form, with the
`resolved_*` slots containing exactly what the spec's name-resolution
contract (spec section 4.3) fills in. -/

/-- The assignment `T[k=<e0>].v = <e1>;` of the cross-node scenario. -/
def s2assign : AssignmentStatement :=
  { table_name := "T", pk_fields := ["k"], pk_exprs := [0], field_name := "v", rhs := 1,
    resolved_table := some 0, resolved_pk_fields := [some 0], resolved_field := some 1 }

/-- Spec scenario 2: table `T` on node `A`, accessed from a hop on `B`. -/
def s2prog : Program :=
  { Program.empty with
    nodes := [{ name := "A" }, { name := "B" }],
    tables := [{ name := "T", node := 0, fields := [0, 1], primary_keys := [0] }],
    fields := [{ field_type := .Int, field_name := "k", is_primary := true },
               { field_type := .Int, field_name := "v", is_primary := false }],
    functions := [{ return_type := .Void, name := "f", parameters := [], hops := [0] }],
    root_functions := [0],
    hops := [{ node_name := "B", statements := [0], resolved_node := some 1 }],
    statements := [{ node := .Assignment s2assign }],
    expressions := [{ node := .IntLit 1 }, { node := .IntLit 2 }] }

/-- The analyzer context inside the hop of `s2prog`. -/
def s2ctx : AnalyzerCtx :=
  { current_node := some 1, return_type := some .Void, in_loop := false }

/-- Spec scenario 3: `void f() { hop on A { abort; } hop on A { abort; } }`. -/
def s3prog : Program :=
  { Program.empty with
    nodes := [{ name := "A" }],
    functions := [{ return_type := .Void, name := "f", parameters := [], hops := [0, 1] }],
    root_functions := [0],
    hops := [{ node_name := "A", statements := [0], resolved_node := some 0 },
             { node_name := "A", statements := [1], resolved_node := some 0 }],
    statements := [{ node := .Abort }, { node := .Abort }] }

/-- A one-expression arena holding `1` (for the widening witnesses). -/
def c2progInt : Program :=
  { Program.empty with expressions := [{ node := .IntLit 1 }] }

/-- A one-expression arena holding a float literal. -/
def c2progFloat : Program :=
  { Program.empty with expressions := [{ node := .FloatLit }] }

/-- The assignment `T[v=<e0>].k1 = <e1>;` : the provided key `v` resolves
to a declared field of `T` but is not a primary key, and only one of the
two primary keys is provided. -/
def c5assign : AssignmentStatement :=
  { table_name := "T", pk_fields := ["v"], pk_exprs := [0], field_name := "k1", rhs := 1,
    resolved_table := some 0, resolved_pk_fields := [some 2], resolved_field := some 0 }

/-- Table `T` with two primary keys `k1, k2` and a plain field `v`,
accessed with the single (resolved, non-primary) key `v`. -/
def c5prog : Program :=
  { Program.empty with
    nodes := [{ name := "A" }],
    tables := [{ name := "T", node := 0, fields := [0, 1, 2], primary_keys := [0, 1] }],
    fields := [{ field_type := .Int, field_name := "k1", is_primary := true },
               { field_type := .Int, field_name := "k2", is_primary := true },
               { field_type := .Int, field_name := "v", is_primary := false }],
    functions := [{ return_type := .Void, name := "f", parameters := [], hops := [0] }],
    root_functions := [0],
    hops := [{ node_name := "A", statements := [0], resolved_node := some 0 }],
    statements := [{ node := .Assignment c5assign }],
    expressions := [{ node := .IntLit 1 }, { node := .IntLit 2 }] }

/-- The assignment `T[k1=<e0>].v = <e1>;` with one valid primary key
provided out of the two `T` declares (spec scenario 5). -/
def c5goodAssign : AssignmentStatement :=
  { table_name := "T", pk_fields := ["k1"], pk_exprs := [0], field_name := "v", rhs := 1,
    resolved_table := some 0, resolved_pk_fields := [some 0], resolved_field := some 2 }

/-- `c5prog` with the valid-but-too-few-keys access instead. -/
def c5good : Program :=
  { c5prog with statements := [{ node := .Assignment c5goodAssign }] }

/-- The analyzer context inside the hop of `c5prog` / `c5good`. -/
def c5ctx : AnalyzerCtx :=
  { current_node := some 0, return_type := some .Void, in_loop := false }

/-- A program whose single statement reads `T[k=7].v` into a local: it
passes analysis, and its table-field-access expression (id 1) keeps
`resolved_type = none` through type inference. -/
def c6prog : Program :=
  { Program.empty with
    nodes := [{ name := "A" }],
    tables := [{ name := "T", node := 0, fields := [0, 1], primary_keys := [0] }],
    fields := [{ field_type := .Int, field_name := "k", is_primary := true },
               { field_type := .Int, field_name := "v", is_primary := false }],
    functions := [{ return_type := .Void, name := "f", parameters := [], hops := [0] }],
    root_functions := [0],
    hops := [{ node_name := "A", statements := [0], resolved_node := some 0 }],
    statements := [{ node := .VarDecl { var_type := .Int, var_name := "x", init_value := 1 } }],
    expressions := [{ node := .IntLit 7 },
      { node := .TableFieldAccess "T" ["k"] [0] "v" (some 0) [some 0] (some 1) none }] }

/-- An arena holding `1 == <float literal>` (int on the left). -/
def c7prog : Program :=
  { Program.empty with
    expressions := [{ node := .IntLit 1 }, { node := .FloatLit },
      { node := .BinaryOp 0 .Eq 1 none }] }

/-- An empty analyzer context (outside any hop). -/
def noHopCtx : AnalyzerCtx :=
  { current_node := none, return_type := none, in_loop := false }

/-- A program assigning a float literal to the declared `int` local `x`. -/
def c9prog : Program :=
  { Program.empty with
    nodes := [{ name := "A" }],
    functions := [{ return_type := .Void, name := "f", parameters := [], hops := [0] }],
    root_functions := [0],
    hops := [{ node_name := "A", statements := [0], resolved_node := some 0 }],
    statements := [{ node := .VarAssignment { var_name := "x", rhs := 0, resolved_var := some 0 } }],
    expressions := [{ node := .FloatLit }],
    vars := [{ name := "x", ty := .Int }],
    resolutions := [(0, 0)] }

/-- Source text `nodes: A; table T on Z { int v; }` - table with no
primary key AND an undeclared owning node. -/
def c4cexsrc : SourceProgram :=
  { nodes := ["A"],
    tables := [{ name := "T", node_name := "Z",
                 fields := [{ is_primary := false, field_type := .Int, field_name := "v" }] }],
    functions := [] }

/-- Source text `nodes: A; table T on A { int v; }` - table with no
primary key on a declared node. -/
def c4oksrc : SourceProgram :=
  { nodes := ["A"],
    tables := [{ name := "T", node_name := "A",
                 fields := [{ is_primary := false, field_type := .Int, field_name := "v" }] }],
    functions := [] }

/-- Source text `nodes: A, A;` - a duplicated node name. -/
def c8src : SourceProgram :=
  { nodes := ["A", "A"], tables := [], functions := [] }

/-- The program the builder produces for `c8src`. -/
def c8built : Program :=
  { Program.empty with
    nodes := [{ name := "A" }, { name := "A" }],
    node_map := [("A", 1)],
    root_nodes := [0, 1] }

/-- Whether an expression is a unary-op or binary-op node. -/
def isUnaryOrBinary (e : Expression) : Bool :=
  match e.node with
  | .UnaryOp _ _ _ => true
  | .BinaryOp _ _ _ _ => true
  | _ => false

/-- Whether an expression is a literal or identifier. -/
def isLeafExpr (e : Expression) : Bool :=
  match e.node with
  | .Ident _ => true
  | .IntLit _ => true
  | .FloatLit => true
  | .StringLit _ => true
  | .BoolLit _ => true
  | _ => false

/-- Whether an expression is a table-field access. -/
def isTFAExpr (e : Expression) : Bool :=
  match e.node with
  | .TableFieldAccess _ _ _ _ _ _ _ _ => true
  | _ => false

/-- How one type-inference step may change the expression arena: any
entry is either untouched, or was a unary/binary node with an empty
`resolved_type` slot that got the slot filled. -/
def exprEvolves (p q : Program) : Prop :=
  q.expressions.length = p.expressions.length ∧
  ∀ j, q.exprD j = p.exprD j ∨
    (isUnaryOrBinary (p.exprD j) = true ∧ getResolvedTypeSlot (p.exprD j) = none ∧
      ∃ ty, q.exprD j = setResolvedTypeSlot (p.exprD j) ty)

/-- The errors of `check_assignment`'s right-hand-side step (lines
306-318), as a standalone value. -/
def rhsCheckErrs (p : Program) (ctx : AnalyzerCtx) (fuel : Nat)
    (field_id rhs : Nat) : List AstError :=
  match checkExpression p ctx fuel rhs with
  | (rerrs, some rhs_type) =>
    rerrs ++
      (if typesCompatible (p.fieldD field_id).field_type rhs_type then []
       else [AstError.TypeMismatch (p.fieldD field_id).field_type rhs_type])
  | (rerrs, none) => rerrs

/-- A program whose single statement declares `int x = 1 + 2;`
(expression id 2 is the binary op). -/
def c6binprog : Program :=
  { Program.empty with
    nodes := [{ name := "A" }],
    functions := [{ return_type := .Void, name := "f", parameters := [], hops := [0] }],
    root_functions := [0],
    hops := [{ node_name := "A", statements := [0], resolved_node := some 0 }],
    statements := [{ node := .VarDecl { var_type := .Int, var_name := "x", init_value := 2 } }],
    expressions := [{ node := .IntLit 1 }, { node := .IntLit 2 },
      { node := .BinaryOp 0 .Add 1 none }] }

/-! ## Basic lemmas -/

theorem lookup_filter_ne (m : List (String × Nat)) (k k2 : String) (h : k2 ≠ k) :
    (m.filter fun kv => kv.1 != k).lookup k2 = m.lookup k2 := by
  induction m with
  | nil => rfl
  | cons kv rest ih =>
    rw [List.filter_cons]
    by_cases hk : kv.1 = k
    · rw [if_neg (by simp [hk])]
      rw [ih]
      have hb : (k2 == kv.1) = false := beq_eq_false_iff_ne.mpr (by rw [hk]; exact h)
      conv_rhs => rw [List.lookup]
      rw [hb]
    · rw [if_pos (by simp [hk])]
      rw [List.lookup, List.lookup]
      cases hbeq : (k2 == kv.1) <;> simp [ih]

theorem mapInsert_lookup_self (m : List (String × Nat)) (k : String) (v : Nat) :
    (mapInsert m k v).lookup k = some v := by
  rw [mapInsert, List.lookup]
  simp

theorem mapInsert_lookup_ne (m : List (String × Nat)) (k k2 : String) (v : Nat)
    (h : k2 ≠ k) : (mapInsert m k v).lookup k2 = m.lookup k2 := by
  rw [mapInsert, List.lookup]
  rw [beq_eq_false_iff_ne.mpr h]
  exact lookup_filter_ne m k k2 h

theorem nodeD_name_inj (p : Program) (hnd : (p.nodes.map NodeDef.name).Nodup)
    {i j : Nat} (hi : i < p.nodes.length) (hj : j < p.nodes.length) (hne : i ≠ j) :
    (p.nodeD i).name ≠ (p.nodeD j).name := by
  intro hEq
  apply hne
  have hi2 : i < (p.nodes.map NodeDef.name).length := by simpa using hi
  have hj2 : j < (p.nodes.map NodeDef.name).length := by simpa using hj
  apply hnd.getElem_inj_iff.mp
  show (p.nodes.map NodeDef.name)[i] = (p.nodes.map NodeDef.name)[j]
  rw [List.getElem_map, List.getElem_map]
  rw [Program.nodeD, Program.nodeD, List.getD_eq_getElem p.nodes default hi,
    List.getD_eq_getElem p.nodes default hj] at hEq
  exact hEq

theorem tableD_node_bound (p : Program)
    (htb : ∀ t ∈ p.tables, t.node < p.nodes.length)
    (hpos : 0 < p.nodes.length) (tid : Nat) :
    (p.tableD tid).node < p.nodes.length := by
  by_cases h : tid < p.tables.length
  · have hmem : p.tables[tid] ∈ p.tables := List.getElem_mem h
    have h2 := htb _ hmem
    rw [Program.tableD, List.getD_eq_getElem p.tables default h]
    exact h2
  · rw [Program.tableD, List.getD_eq_default p.tables default (by omega)]
    have hd : (default : TableDeclaration).node = 0 := rfl
    rw [hd]
    exact hpos

/-! ## Which errors the expression checker can emit

A single induction parametrized by a predicate `Q`: if `Q` holds of
every error shape `check_expression` can push, then every member of its
output satisfies `Q`.  Instantiated once for the cross-node claim (C1)
and once for the absence of `TypeMismatch` (C9). -/

theorem checkTableFieldAccessTail_sat (p : Program) (Q : AstError → Prop)
    (hPk : ∀ t c, Q (.InvalidPrimaryKey t c))
    (hParse : ∀ m, Q (.ParseError m))
    (hFld : ∀ t f, Q (.UndeclaredField t f))
    (tobj : TableDeclaration) (tname fname : String)
    (rpk : List (Option Nat)) (rf : Option Nat) :
    ∀ e ∈ (checkTableFieldAccessTail p tobj tname fname rpk rf).1, Q e := by
  intro e he
  unfold checkTableFieldAccessTail at he
  split at he
  · simp at he
  · split at he
    · simp at he
      subst he
      apply hPk
    · split at he
      · simp at he
        subst he
        apply hParse
      · split at he
        · simp at he
          subst he
          apply hFld
        · simp at he

theorem checkBinaryOp_sat (Q : AstError → Prop)
    (hBin : ∀ o l r, Q (.InvalidBinaryOp o l r))
    (op : BinaryOp) (l r : TypeName) :
    ∀ e ∈ (checkBinaryOp op l r).1, Q e := by
  intro e he
  rcases op <;> simp only [checkBinaryOp] at he <;> (repeat' split at he) <;>
    simp only [List.mem_singleton, List.not_mem_nil] at he <;> (try subst he) <;>
    (try apply hBin)

theorem checkExpression_sat (p : Program) (ctx : AnalyzerCtx) (Q : AstError → Prop)
    (hTab : ∀ s, Q (.UndeclaredTable s))
    (hCross : ∀ tid cur, ctx.current_node = some cur → (p.tableD tid).node ≠ cur →
      Q (.CrossNodeAccess (p.tableD tid).name (p.nodeD (p.tableD tid).node).name
          (p.nodeD cur).name))
    (hPk : ∀ t c, Q (.InvalidPrimaryKey t c))
    (hParse : ∀ m, Q (.ParseError m))
    (hFld : ∀ t f, Q (.UndeclaredField t f))
    (hUn : ∀ o t, Q (.InvalidUnaryOp o t))
    (hBin : ∀ o l r, Q (.InvalidBinaryOp o l r)) :
    ∀ fuel : Nat,
      (∀ eid, ∀ e ∈ (checkExpression p ctx fuel eid).1, Q e) ∧
      (∀ es, ∀ e ∈ checkExpressionList p ctx fuel es, Q e) := by
  intro fuel
  induction fuel with
  | zero =>
    constructor
    · intro eid e he
      simp [checkExpression] at he
    · intro es e he
      simp [checkExpressionList] at he
  | succ fuel ih =>
    obtain ⟨ihE, ihL⟩ := ih
    constructor
    · intro eid e he
      rw [checkExpression] at he
      cases hk : (p.exprD eid).node with
      | Ident nm =>
        rw [hk] at he
        simp only [] at he
        split at he <;> simp at he
      | IntLit v => rw [hk] at he; simp only [] at he; simp at he
      | FloatLit => rw [hk] at he; simp only [] at he; simp at he
      | StringLit v => rw [hk] at he; simp only [] at he; simp at he
      | BoolLit v => rw [hk] at he; simp only [] at he; simp at he
      | TableFieldAccess tnm pkf pke fnm rtab rpk rf rty =>
        rw [hk] at he
        simp only [] at he
        split at he
        · -- resolved_table = none
          simp at he
          rcases he with he | he
          · exact ihL pke e he
          · subst he; apply hTab
        · -- resolved_table = some tid
          rename_i tid
          split at he
          · -- current_node = some cur
            rename_i cur hcur
            split at he
            · -- cross-node hit
              rename_i hne
              simp at he
              rcases he with he | he
              · exact ihL pke e he
              · subst he; exact hCross tid cur hcur hne
            · -- own node: the non-recursive tail
              simp at he
              rcases he with he | he
              · exact ihL pke e he
              · exact checkTableFieldAccessTail_sat p Q hPk hParse hFld _ _ _ _ _ e he
          · -- current_node = none
            simp at he
            rcases he with he | he
            · exact ihL pke e he
            · exact checkTableFieldAccessTail_sat p Q hPk hParse hFld _ _ _ _ _ e he
      | UnaryOp op inner rty =>
        rw [hk] at he
        simp only [] at he
        split at he
        · rename_i errs heq
          exact ihE inner e (by rw [heq]; exact he)
        · rename_i errs oty heq
          split at he
          · -- Neg
            split at he
            · exact ihE inner e (by rw [heq]; exact he)
            · simp at he
              rcases he with he | he
              · exact ihE inner e (by rw [heq]; simpa using he)
              · subst he; apply hUn
          · -- Not
            split at he
            · exact ihE inner e (by rw [heq]; exact he)
            · simp at he
              rcases he with he | he
              · exact ihE inner e (by rw [heq]; simpa using he)
              · subst he; apply hUn
      | BinaryOp lid op2 rid rty =>
        rw [hk] at he
        simp only [] at he
        split at he
        · rename_i lerrs heqL
          exact ihE lid e (by rw [heqL]; exact he)
        · rename_i lerrs lt heqL
          split at he
          · rename_i rerrs heqR
            simp at he
            rcases he with he | he
            · exact ihE lid e (by rw [heqL]; simpa using he)
            · exact ihE rid e (by rw [heqR]; simpa using he)
          · rename_i rerrs rt heqR
            simp only [] at he
            simp at he
            rcases he with he | he | he
            · exact ihE lid e (by rw [heqL]; simpa using he)
            · exact ihE rid e (by rw [heqR]; simpa using he)
            · exact checkBinaryOp_sat Q hBin op2 lt rt e he
    · intro es e he
      rcases es with _ | ⟨e1, rest⟩
      · simp [checkExpressionList] at he
      · simp only [checkExpressionList] at he
        simp at he
        rcases he with he | he
        · exact ihE e1 e he
        · exact ihL rest e he

theorem checkPkFields_sat (p : Program) (ctx : AnalyzerCtx) (fuel : Nat)
    (table : TableDeclaration) (Q : AstError → Prop)
    (hTM : ∀ a b, Q (.TypeMismatch a b))
    (hPk : ∀ t c, Q (.InvalidPrimaryKey t c))
    (hE : ∀ eid, ∀ e ∈ (checkExpression p ctx fuel eid).1, Q e) :
    ∀ resolved exprs, ∀ e ∈ (checkPkFields p ctx fuel table resolved exprs).1, Q e := by
  intro resolved
  induction resolved with
  | nil =>
    intro exprs e he
    simp [checkPkFields] at he
  | cons o rest ih =>
    intro exprs e he
    rcases o with _ | pk_field_id
    · simp only [checkPkFields] at he
      exact ih exprs.tail e he
    · simp only [checkPkFields] at he
      split at he
      · simp at he
        subst he
        apply hPk
      · simp only [] at he
        rw [List.mem_append] at he
        rcases he with he | he
        · split at he
          · rename_i pk_expr hhead
            split at he
            · rename_i perrs pty heq
              split at he
              · simp at he
                exact hE pk_expr e (by rw [heq]; simpa using he)
              · simp at he
                rcases he with he | he
                · exact hE pk_expr e (by rw [heq]; simpa using he)
                · subst he; apply hTM
            · rename_i perrs heq
              exact hE pk_expr e (by rw [heq]; exact he)
          · simp at he
        · exact ih exprs.tail e he

theorem checkAssignmentBody_sat (p : Program) (ctx : AnalyzerCtx) (fuel : Nat)
    (assign : AssignmentStatement) (table : TableDeclaration) (Q : AstError → Prop)
    (hTM : ∀ a b, Q (.TypeMismatch a b))
    (hPk : ∀ t c, Q (.InvalidPrimaryKey t c))
    (hParse : ∀ m, Q (.ParseError m))
    (hE : ∀ eid, ∀ e ∈ (checkExpression p ctx fuel eid).1, Q e) :
    ∀ e ∈ checkAssignmentBody p ctx fuel assign table, Q e := by
  intro e he
  unfold checkAssignmentBody at he
  split at he
  · rename_i field_id hgate
    split at he
    · rename_i errs heq
      exact checkPkFields_sat p ctx fuel table Q hTM hPk hE _ _ e (by rw [heq]; exact he)
    · rename_i errs heq
      have hpk : ∀ x ∈ errs, Q x := by
        intro x hx
        exact checkPkFields_sat p ctx fuel table Q hTM hPk hE _ _ x (by rw [heq]; exact hx)
      split at he
      · simp at he
        rcases he with he | he
        · exact hpk e he
        · subst he; apply hParse
      · split at he
        · rename_i rerrs rty heqR
          simp at he
          rcases he with he | he | he
          · exact hpk e he
          · exact hE _ e (by rw [heqR]; simpa using he)
          · obtain ⟨hcomp, he⟩ := he
            subst he
            apply hTM
        · rename_i rerrs heqR
          simp at he
          rcases he with he | he
          · exact hpk e he
          · exact hE _ e (by rw [heqR]; simpa using he)
  · simp at he

theorem checkMultiAssignList_sat (p : Program) (ctx : AnalyzerCtx) (fuel : Nat)
    (Q : AstError → Prop)
    (hTM : ∀ a b, Q (.TypeMismatch a b))
    (hE : ∀ eid, ∀ e ∈ (checkExpression p ctx fuel eid).1, Q e) :
    ∀ assigns, ∀ e ∈ checkMultiAssignList p ctx fuel assigns, Q e := by
  intro assigns
  induction assigns with
  | nil => intro e he; simp [checkMultiAssignList] at he
  | cons a rest ih =>
    intro e he
    simp only [checkMultiAssignList] at he
    rw [List.mem_append] at he
    rcases he with he | he
    · split at he
      · rename_i field_id
        split at he
        · rename_i rerrs rty heq
          split at he
          · simp at he
            exact hE _ e (by rw [heq]; simpa using he)
          · simp at he
            rcases he with he | he
            · exact hE _ e (by rw [heq]; simpa using he)
            · subst he; apply hTM
        · rename_i rerrs heq
          exact hE _ e (by rw [heq]; exact he)
      · simp at he
    · exact ih e he

theorem checkMultiAssignmentBody_sat (p : Program) (ctx : AnalyzerCtx) (fuel : Nat)
    (m : MultiAssignmentStatement) (table : TableDeclaration) (Q : AstError → Prop)
    (hTM : ∀ a b, Q (.TypeMismatch a b))
    (hPk : ∀ t c, Q (.InvalidPrimaryKey t c))
    (hParse : ∀ m2, Q (.ParseError m2))
    (hE : ∀ eid, ∀ e ∈ (checkExpression p ctx fuel eid).1, Q e) :
    ∀ e ∈ checkMultiAssignmentBody p ctx fuel m table, Q e := by
  intro e he
  unfold checkMultiAssignmentBody at he
  split at he
  · split at he
    · rename_i errs heq
      exact checkPkFields_sat p ctx fuel table Q hTM hPk hE _ _ e (by rw [heq]; exact he)
    · rename_i errs heq
      have hpk : ∀ x ∈ errs, Q x := by
        intro x hx
        exact checkPkFields_sat p ctx fuel table Q hTM hPk hE _ _ x (by rw [heq]; exact hx)
      split at he
      · simp at he
        rcases he with he | he
        · exact hpk e he
        · subst he; apply hParse
      · simp at he
        rcases he with he | he
        · exact hpk e he
        · exact checkMultiAssignList_sat p ctx fuel Q hTM hE _ e he
  · simp at he

/-! ## Forward characterizations of the cross-node short-circuit -/

theorem checkAssignment_cross_eq (p : Program) (ctx : AnalyzerCtx) (fuel : Nat)
    (a : AssignmentStatement) (tid n : Nat)
    (hcn : ctx.current_node = some n) (hrt : a.resolved_table = some tid)
    (hne : (p.tableD tid).node ≠ n) :
    checkAssignment p ctx fuel a = [crossErrFor p tid n] := by
  unfold checkAssignment
  rw [hrt]
  simp only []
  rw [hcn]
  simp only []
  rw [if_pos hne]
  rfl

theorem checkAssignment_own_eq (p : Program) (ctx : AnalyzerCtx) (fuel : Nat)
    (a : AssignmentStatement) (tid n : Nat)
    (hcn : ctx.current_node = some n) (hrt : a.resolved_table = some tid)
    (hown : (p.tableD tid).node = n) :
    checkAssignment p ctx fuel a = checkAssignmentBody p ctx fuel a (p.tableD tid) := by
  unfold checkAssignment
  rw [hrt]
  simp only []
  rw [hcn]
  simp only []
  rw [if_neg (by simp [hown])]

theorem checkMultiAssignment_cross_eq (p : Program) (ctx : AnalyzerCtx) (fuel : Nat)
    (m : MultiAssignmentStatement) (tid n : Nat)
    (hcn : ctx.current_node = some n) (hrt : m.resolved_table = some tid)
    (hne : (p.tableD tid).node ≠ n) :
    checkMultiAssignment p ctx fuel m = [crossErrFor p tid n] := by
  unfold checkMultiAssignment
  rw [hrt]
  simp only []
  rw [hcn]
  simp only []
  rw [if_pos hne]
  rfl

theorem checkMultiAssignment_own_eq (p : Program) (ctx : AnalyzerCtx) (fuel : Nat)
    (m : MultiAssignmentStatement) (tid n : Nat)
    (hcn : ctx.current_node = some n) (hrt : m.resolved_table = some tid)
    (hown : (p.tableD tid).node = n) :
    checkMultiAssignment p ctx fuel m = checkMultiAssignmentBody p ctx fuel m (p.tableD tid) := by
  unfold checkMultiAssignment
  rw [hrt]
  simp only []
  rw [hcn]
  simp only []
  rw [if_neg (by simp [hown])]

theorem checkExpression_tfa_cross_eq (p : Program) (ctx : AnalyzerCtx) (fuel : Nat)
    (eid : Nat) (tnm : String) (pkf : List String) (pke : List Nat) (fnm : String)
    (tid : Nat) (rpk : List (Option Nat)) (rf : Option Nat) (rty : Option TypeName)
    (n : Nat)
    (hk : (p.exprD eid).node = .TableFieldAccess tnm pkf pke fnm (some tid) rpk rf rty)
    (hcn : ctx.current_node = some n) (hne : (p.tableD tid).node ≠ n) :
    checkExpression p ctx (fuel + 1) eid =
      (checkExpressionList p ctx fuel pke ++ [crossErrFor p tid n], none) := by
  rw [checkExpression, hk]
  simp only []
  rw [hcn]
  simp only []
  rw [if_pos hne]
  rfl

theorem checkExpression_tfa_own_eq (p : Program) (ctx : AnalyzerCtx) (fuel : Nat)
    (eid : Nat) (tnm : String) (pkf : List String) (pke : List Nat) (fnm : String)
    (tid : Nat) (rpk : List (Option Nat)) (rf : Option Nat) (rty : Option TypeName)
    (n : Nat)
    (hk : (p.exprD eid).node = .TableFieldAccess tnm pkf pke fnm (some tid) rpk rf rty)
    (hcn : ctx.current_node = some n) (hown : (p.tableD tid).node = n) :
    checkExpression p ctx (fuel + 1) eid =
      (checkExpressionList p ctx fuel pke ++
        (checkTableFieldAccessTail p (p.tableD tid) tnm fnm rpk rf).1,
       (checkTableFieldAccessTail p (p.tableD tid) tnm fnm rpk rf).2) := by
  rw [checkExpression, hk]
  simp only []
  rw [hcn]
  simp only []
  rw [if_neg (by simp [hown])]

theorem checkAssignment_sat (p : Program) (ctx : AnalyzerCtx) (fuel : Nat)
    (a : AssignmentStatement) (Q : AstError → Prop)
    (hTab : ∀ s, Q (.UndeclaredTable s))
    (hCross : ∀ tid cur, ctx.current_node = some cur → (p.tableD tid).node ≠ cur →
      Q (.CrossNodeAccess (p.tableD tid).name (p.nodeD (p.tableD tid).node).name
          (p.nodeD cur).name))
    (hTM : ∀ x y, Q (.TypeMismatch x y))
    (hPk : ∀ t c, Q (.InvalidPrimaryKey t c))
    (hParse : ∀ m, Q (.ParseError m))
    (hE : ∀ eid, ∀ e ∈ (checkExpression p ctx fuel eid).1, Q e) :
    ∀ e ∈ checkAssignment p ctx fuel a, Q e := by
  intro e he
  unfold checkAssignment at he
  split at he
  · simp at he; subst he; apply hTab
  · rename_i tid htid
    simp only [] at he
    split at he
    · rename_i cur hcur
      split at he
      · rename_i hne
        simp at he
        subst he
        exact hCross tid cur hcur hne
      · exact checkAssignmentBody_sat p ctx fuel a _ Q hTM hPk hParse hE e he
    · exact checkAssignmentBody_sat p ctx fuel a _ Q hTM hPk hParse hE e he

theorem checkMultiAssignment_sat (p : Program) (ctx : AnalyzerCtx) (fuel : Nat)
    (m : MultiAssignmentStatement) (Q : AstError → Prop)
    (hTab : ∀ s, Q (.UndeclaredTable s))
    (hCross : ∀ tid cur, ctx.current_node = some cur → (p.tableD tid).node ≠ cur →
      Q (.CrossNodeAccess (p.tableD tid).name (p.nodeD (p.tableD tid).node).name
          (p.nodeD cur).name))
    (hTM : ∀ x y, Q (.TypeMismatch x y))
    (hPk : ∀ t c, Q (.InvalidPrimaryKey t c))
    (hParse : ∀ m2, Q (.ParseError m2))
    (hE : ∀ eid, ∀ e ∈ (checkExpression p ctx fuel eid).1, Q e) :
    ∀ e ∈ checkMultiAssignment p ctx fuel m, Q e := by
  intro e he
  unfold checkMultiAssignment at he
  split at he
  · simp at he; subst he; apply hTab
  · rename_i tid htid
    simp only [] at he
    split at he
    · rename_i cur hcur
      split at he
      · rename_i hne
        simp at he
        subst he
        exact hCross tid cur hcur hne
      · exact checkMultiAssignmentBody_sat p ctx fuel m _ Q hTM hPk hParse hE e he
    · exact checkMultiAssignmentBody_sat p ctx fuel m _ Q hTM hPk hParse hE e he

/-- The cross-separation predicate: any `CrossNodeAccess` error carries
two distinct node names. -/
def crossSeparated : AstError → Prop :=
  fun e => ∀ t tn cn, e = AstError.CrossNodeAccess t tn cn → tn ≠ cn

theorem crossSeparated_hyps (p : Program) (ctx : AnalyzerCtx) (n : Nat)
    (hnd : (p.nodes.map NodeDef.name).Nodup)
    (htb : ∀ t ∈ p.tables, t.node < p.nodes.length)
    (hcn : ctx.current_node = some n)
    (hnb : n < p.nodes.length) :
    ∀ tid cur, ctx.current_node = some cur → (p.tableD tid).node ≠ cur →
      crossSeparated (.CrossNodeAccess (p.tableD tid).name
        (p.nodeD (p.tableD tid).node).name (p.nodeD cur).name) := by
  intro tid cur hc hne t tn cn hEq
  injection hEq with h1 h2 h3
  subst h2
  subst h3
  have hcur : cur = n := by
    rw [hcn] at hc
    exact (Option.some_inj.mp hc).symm
  subst hcur
  exact nodeD_name_inj p hnd (tableD_node_bound p htb (Nat.zero_lt_of_lt hnb) tid) hnb hne

/-- C1.  For a construct whose table resolved to `tid`, checked inside a
hop whose resolved node is `n` (with distinct node names and in-bounds
node references), the analyzer's output for that construct contains the
construct's `CrossNodeAccess` error exactly when the owning node of the
table differs from `n`.  Covers field assignments, multi-assignments and
table-field-access expressions (`check_assignment`,
`check_multi_assignment`, `check_expression`). -/
theorem c1_cross_node_access_iff
    (p : Program) (ctx : AnalyzerCtx) (fuel n : Nat)
    (hnd : (p.nodes.map NodeDef.name).Nodup)
    (htb : ∀ t ∈ p.tables, t.node < p.nodes.length)
    (hcn : ctx.current_node = some n)
    (hnb : n < p.nodes.length) :
    (∀ (a : AssignmentStatement) (tid : Nat), a.resolved_table = some tid →
      ((p.tableD tid).node ≠ n ↔ crossErrFor p tid n ∈ checkAssignment p ctx fuel a)) ∧
    (∀ (m : MultiAssignmentStatement) (tid : Nat), m.resolved_table = some tid →
      ((p.tableD tid).node ≠ n ↔ crossErrFor p tid n ∈ checkMultiAssignment p ctx fuel m)) ∧
    (∀ (eid tid : Nat) (tnm : String) (pkf : List String) (pke : List Nat) (fnm : String)
        (rpk : List (Option Nat)) (rf : Option Nat) (rty : Option TypeName),
      (p.exprD eid).node = .TableFieldAccess tnm pkf pke fnm (some tid) rpk rf rty →
      ((p.tableD tid).node ≠ n ↔
        crossErrFor p tid n ∈ (checkExpression p ctx (fuel + 1) eid).1)) := by
  have hQtriv : ∀ (x : AstError), (∀ t tn cn, x = AstError.CrossNodeAccess t tn cn → False) →
      crossSeparated x := by
    intro x hx t tn cn hEq
    exact absurd hEq (fun h => hx t tn cn h)
  have hCross := crossSeparated_hyps p ctx n hnd htb hcn hnb
  have hE : ∀ fuel2, ∀ eid, ∀ e ∈ (checkExpression p ctx fuel2 eid).1, crossSeparated e := by
    intro fuel2
    exact (checkExpression_sat p ctx crossSeparated
      (fun s => hQtriv _ (fun t tn cn h => AstError.noConfusion h))
      hCross
      (fun t c => hQtriv _ (fun x y z h => AstError.noConfusion h))
      (fun m2 => hQtriv _ (fun x y z h => AstError.noConfusion h))
      (fun t f => hQtriv _ (fun x y z h => AstError.noConfusion h))
      (fun o t => hQtriv _ (fun x y z h => AstError.noConfusion h))
      (fun o l r => hQtriv _ (fun x y z h => AstError.noConfusion h)) fuel2).1
  refine ⟨?_, ?_, ?_⟩
  · intro a tid hrt
    constructor
    · intro hne
      rw [checkAssignment_cross_eq p ctx fuel a tid n hcn hrt hne]
      simp
    · intro hmem
      by_contra hown
      rw [checkAssignment_own_eq p ctx fuel a tid n hcn hrt hown] at hmem
      have hsep := checkAssignmentBody_sat p ctx fuel a (p.tableD tid) crossSeparated
        (fun x y => hQtriv _ (fun a2 b2 c2 h => AstError.noConfusion h))
        (fun t c => hQtriv _ (fun a2 b2 c2 h => AstError.noConfusion h))
        (fun m2 => hQtriv _ (fun a2 b2 c2 h => AstError.noConfusion h))
        (hE fuel) _ hmem
      apply hsep (p.tableD tid).name (p.nodeD (p.tableD tid).node).name (p.nodeD n).name
      · rfl
      · rw [hown]
  · intro m tid hrt
    constructor
    · intro hne
      rw [checkMultiAssignment_cross_eq p ctx fuel m tid n hcn hrt hne]
      simp
    · intro hmem
      by_contra hown
      rw [checkMultiAssignment_own_eq p ctx fuel m tid n hcn hrt hown] at hmem
      have hsep := checkMultiAssignmentBody_sat p ctx fuel m (p.tableD tid) crossSeparated
        (fun x y => hQtriv _ (fun a2 b2 c2 h => AstError.noConfusion h))
        (fun t c => hQtriv _ (fun a2 b2 c2 h => AstError.noConfusion h))
        (fun m2 => hQtriv _ (fun a2 b2 c2 h => AstError.noConfusion h))
        (hE fuel) _ hmem
      apply hsep (p.tableD tid).name (p.nodeD (p.tableD tid).node).name (p.nodeD n).name
      · rfl
      · rw [hown]
  · intro eid tid tnm pkf pke fnm rpk rf rty hk
    constructor
    · intro hne
      rw [checkExpression_tfa_cross_eq p ctx fuel eid tnm pkf pke fnm tid rpk rf rty n hk hcn hne]
      simp [crossErrFor]
    · intro hmem
      by_contra hown
      have hsep := hE (fuel + 1) eid _ hmem
      apply hsep (p.tableD tid).name (p.nodeD (p.tableD tid).node).name (p.nodeD n).name
      · rfl
      · rw [hown]

/-- Witness for C1 at spec scenario 2: the assignment to `T` (owned by
node `A`, id 0) inside the hop on node `B` (id 1). -/
theorem c1_cross_node_access_iff_witness :
    (s2prog.tableD 0).node ≠ 1 ↔
      crossErrFor s2prog 0 1 ∈ checkAssignment s2prog s2ctx 8 s2assign :=
  (c1_cross_node_access_iff s2prog s2ctx 8 1 (by decide)
    (by intro t ht; simp [s2prog, Program.empty] at ht; subst ht; decide) rfl
    (by decide)).1 s2assign 0 rfl

/-- C10.  When the cross-node check fires, the construct's checking
stops: a field assignment or multi-assignment reports exactly the single
`CrossNodeAccess` error, and a table-field-access expression reports the
errors of its (already checked) primary-key sub-expressions followed by
the single `CrossNodeAccess` error, types to `none`, and performs none
of its primary-key-validity, arity, or field checks. -/
theorem c10_cross_node_short_circuit
    (p : Program) (ctx : AnalyzerCtx) (fuel n : Nat)
    (hcn : ctx.current_node = some n) :
    (∀ (a : AssignmentStatement) (tid : Nat), a.resolved_table = some tid →
      (p.tableD tid).node ≠ n →
      checkAssignment p ctx fuel a = [crossErrFor p tid n]) ∧
    (∀ (m : MultiAssignmentStatement) (tid : Nat), m.resolved_table = some tid →
      (p.tableD tid).node ≠ n →
      checkMultiAssignment p ctx fuel m = [crossErrFor p tid n]) ∧
    (∀ (eid tid : Nat) (tnm : String) (pkf : List String) (pke : List Nat) (fnm : String)
        (rpk : List (Option Nat)) (rf : Option Nat) (rty : Option TypeName),
      (p.exprD eid).node = .TableFieldAccess tnm pkf pke fnm (some tid) rpk rf rty →
      (p.tableD tid).node ≠ n →
      checkExpression p ctx (fuel + 1) eid =
        (checkExpressionList p ctx fuel pke ++ [crossErrFor p tid n], none)) := by
  refine ⟨?_, ?_, ?_⟩
  · intro a tid hrt hne
    exact checkAssignment_cross_eq p ctx fuel a tid n hcn hrt hne
  · intro m tid hrt hne
    exact checkMultiAssignment_cross_eq p ctx fuel m tid n hcn hrt hne
  · intro eid tid tnm pkf pke fnm rpk rf rty hk hne
    exact checkExpression_tfa_cross_eq p ctx fuel eid tnm pkf pke fnm tid rpk rf rty n hk hcn hne

/-- Witness for C10 at spec scenario 2: the cross-node assignment
reports exactly one error. -/
theorem c10_cross_node_short_circuit_witness :
    checkAssignment s2prog s2ctx 8 s2assign = [crossErrFor s2prog 0 1] :=
  (c10_cross_node_short_circuit s2prog s2ctx 8 1 rfl).1 s2assign 0 rfl (by decide)

/-- C2.  `types_compatible` holds exactly for equal types or the
int-into-float widening; consequently a `float` variable declaration
accepts an int-typed initializer verbatim, while an `int` declaration
with a float-typed initializer adds a `TypeMismatch` error. -/
theorem c2_types_compatible_widening :
    (∀ expected actual : TypeName, typesCompatible expected actual = true ↔
      (expected = actual ∨ (expected = TypeName.Float ∧ actual = TypeName.Int))) ∧
    (∀ (p : Program) (ctx : AnalyzerCtx) (fuel : Nat) (v : VarDeclStatement)
        (errs : List AstError),
      v.var_type = TypeName.Float →
      checkExpression p ctx fuel v.init_value = (errs, some TypeName.Int) →
      checkVarDecl p ctx fuel v = errs) ∧
    (∀ (p : Program) (ctx : AnalyzerCtx) (fuel : Nat) (v : VarDeclStatement)
        (errs : List AstError),
      v.var_type = TypeName.Int →
      checkExpression p ctx fuel v.init_value = (errs, some TypeName.Float) →
      checkVarDecl p ctx fuel v =
        errs ++ [AstError.TypeMismatch TypeName.Int TypeName.Float]) := by
  refine ⟨?_, ?_, ?_⟩
  · intro e a
    cases e <;> cases a <;> decide
  · intro p ctx fuel v errs hft hce
    unfold checkVarDecl
    rw [hce]
    simp only []
    rw [hft]
    simp [typesCompatible]
  · intro p ctx fuel v errs hit hce
    unfold checkVarDecl
    rw [hce]
    simp only []
    rw [hit]
    simp [typesCompatible]

/-- Witness for C2: a `float x = 1;` declaration is accepted without
errors, an `int x = 1.0;` declaration yields exactly the mismatch. -/
theorem c2_types_compatible_widening_witness :
    checkVarDecl c2progInt noHopCtx 3
        { var_type := TypeName.Float, var_name := "x", init_value := 0 } = [] ∧
    checkVarDecl c2progFloat noHopCtx 3
        { var_type := TypeName.Int, var_name := "x", init_value := 0 } =
      [AstError.TypeMismatch TypeName.Int TypeName.Float] := by
  constructor
  · exact c2_types_compatible_widening.2.1 c2progInt noHopCtx 3 _ [] rfl (by decide)
  · exact c2_types_compatible_widening.2.2 c2progFloat noHopCtx 3 _ [] rfl (by decide)

/-- C3.  An `abort` statement produces `AbortNotInFirstHop` exactly when
its hop index is nonzero, and spec scenario 3 (abort in each of two
hops) yields exactly the single error for hop index 1. -/
theorem c3_abort_only_first_hop :
    (∀ (p : Program) (ctx : AnalyzerCtx) (fuel sid hop_index : Nat) (fn : String),
      (p.stmtD sid).node = StatementKind.Abort →
      checkStatement p ctx (fuel + 1) sid hop_index fn =
        (if hop_index ≠ 0 then [AstError.AbortNotInFirstHop fn hop_index] else [],
         false)) ∧
    analyzeProgramErrors s3prog = [AstError.AbortNotInFirstHop "f" 1] := by
  constructor
  · intro p ctx fuel sid hi fn hk
    rw [checkStatement, hk]
    rfl
  · decide

/-- Witness for C3: the abort in hop index 1 of scenario 3 reports the
error, the abort in hop index 0 does not. -/
theorem c3_abort_only_first_hop_witness :
    checkStatement s3prog { current_node := some 0, return_type := some .Void, in_loop := false }
        5 1 1 "f" = ([AstError.AbortNotInFirstHop "f" 1], false) ∧
    checkStatement s3prog { current_node := some 0, return_type := some .Void, in_loop := false }
        5 0 0 "f" = ([], false) := by
  constructor
  · have h := c3_abort_only_first_hop.1 s3prog
      { current_node := some 0, return_type := some .Void, in_loop := false } 4 1 1 "f" rfl
    simpa using h
  · have h := c3_abort_only_first_hop.1 s3prog
      { current_node := some 0, return_type := some .Void, in_loop := false } 4 0 0 "f" rfl
    simpa using h

/-- C7 (amended).  Equality and inequality between a `float` left
operand and an `int` right operand are accepted with result `bool`; the
mirrored `int == float` order is rejected with `InvalidBinaryOp`,
because `types_compatible` widens only int into an expected float. -/
theorem c7_equality_float_int_asymmetric :
    checkBinaryOp .Eq .Float .Int = ([], some TypeName.Bool) ∧
    checkBinaryOp .Neq .Float .Int = ([], some TypeName.Bool) ∧
    checkBinaryOp .Eq .Int .Float =
      ([AstError.InvalidBinaryOp "Eq" TypeName.Int TypeName.Float], none) ∧
    checkBinaryOp .Neq .Int .Float =
      ([AstError.InvalidBinaryOp "Neq" TypeName.Int TypeName.Float], none) := by
  refine ⟨by decide, by decide, by decide, by decide⟩

/-- Counterexample to C7 as stated: the expression `1 == 1.0` (int on
the left, float on the right) is rejected with `InvalidBinaryOp`, not
accepted with type bool. -/
theorem c7_equality_int_float_rejected_cex :
    checkExpression c7prog noHopCtx 9 2 =
      ([AstError.InvalidBinaryOp "Eq" TypeName.Int TypeName.Float], none) := by
  decide

/-- C9 (amended).  `check_var_assignment` never reports a
`TypeMismatch`: it only re-checks the right-hand-side expression, whose
checker cannot emit that error kind, and performs no compatibility check
against the target variable's declared type. -/
theorem c9_var_assignment_never_type_mismatch :
    ∀ (p : Program) (ctx : AnalyzerCtx) (fuel : Nat) (va : VarAssignmentStatement),
      (checkVarAssignment p ctx fuel va).all (fun e => !isTypeMismatchErr e) = true := by
  intro p ctx fuel va
  rw [List.all_eq_true]
  intro e he
  have hQ := (checkExpression_sat p ctx (fun e2 => isTypeMismatchErr e2 = false)
    (fun _ => rfl) (fun _ _ _ _ => rfl) (fun _ _ => rfl) (fun _ => rfl)
    (fun _ _ => rfl) (fun _ _ => rfl) (fun _ _ _ => rfl) fuel).1 va.rhs e
    (by simpa [checkVarAssignment] using he)
  simp [hQ]

/-- Counterexample to C9 as stated: assigning a float literal to the
declared `int` local `x` passes the whole semantic analysis with no
error at all - no `TypeMismatch` is reported. -/
theorem c9_int_var_float_rhs_accepted_cex :
    analyzeProgramErrors c9prog = [] := by
  decide

/-! ## Primary-key arity (C5) -/

theorem checkPkFields_no_stop (p : Program) (ctx : AnalyzerCtx) (fuel : Nat)
    (table : TableDeclaration) :
    ∀ (resolved : List (Option Nat)) (exprs : List Nat),
      (∀ o ∈ resolved, ∀ pk, o = some pk → pk ∈ table.primary_keys) →
      (checkPkFields p ctx fuel table resolved exprs).2 = false := by
  intro resolved
  induction resolved with
  | nil => intro exprs hv; rfl
  | cons o rest ih =>
    intro exprs hv
    rcases o with _ | pk
    · simp only [checkPkFields]
      exact ih exprs.tail (fun o ho => hv o (List.mem_cons_of_mem _ ho))
    · have hmem : pk ∈ table.primary_keys := hv (some pk) (List.mem_cons_self _ _) pk rfl
      simp only [checkPkFields]
      rw [if_neg (not_not_intro (by simpa using hmem))]
      simp only []
      exact ih exprs.tail (fun o ho => hv o (List.mem_cons_of_mem _ ho))

theorem firstInvalidPk_none (table : TableDeclaration) (resolved : List (Option Nat))
    (hv : ∀ o ∈ resolved, ∀ pk, o = some pk → pk ∈ table.primary_keys) :
    firstInvalidPk table resolved = none := by
  rw [firstInvalidPk, List.findSome?_eq_none_iff]
  intro o ho
  rcases o with _ | pk
  · rfl
  · simp only []
    rw [if_pos (by simpa using hv (some pk) ho pk rfl)]

/-- C5 (amended).  For a construct whose table resolved, whose provided
primary keys all resolved to fields that are primary keys of the table,
and whose assigned field(s) resolved (where applicable), on the table's
own node: when the number of provided keys differs from the declared
primary-key count the construct appends exactly the
`ParseError("Table T requires N primary key values, but M were
provided")` after the primary-key type checks and stops; when the counts
match it appends no such error and proceeds.  (If a provided key
resolves to a non-primary field, `InvalidPrimaryKey` preempts the count
check - see the counterexample.) -/
theorem c5_pk_arity_characterization (p : Program) (ctx : AnalyzerCtx) (fuel n : Nat)
    (hcn : ctx.current_node = some n) :
    (∀ (a : AssignmentStatement) (tid fid : Nat),
      a.resolved_table = some tid → (p.tableD tid).node = n →
      a.resolved_field = some fid →
      (∀ o ∈ a.resolved_pk_fields, o.isSome = true) →
      (∀ o ∈ a.resolved_pk_fields, ∀ pk, o = some pk → pk ∈ (p.tableD tid).primary_keys) →
      ((p.tableD tid).primary_keys.length ≠ a.resolved_pk_fields.length →
        checkAssignment p ctx fuel a =
          (checkPkFields p ctx fuel (p.tableD tid) a.resolved_pk_fields a.pk_exprs).1 ++
            [AstError.ParseError (pkCountMsg (p.tableD tid).name
              (p.tableD tid).primary_keys.length a.resolved_pk_fields.length)]) ∧
      ((p.tableD tid).primary_keys.length = a.resolved_pk_fields.length →
        checkAssignment p ctx fuel a =
          (checkPkFields p ctx fuel (p.tableD tid) a.resolved_pk_fields a.pk_exprs).1 ++
            rhsCheckErrs p ctx fuel fid a.rhs)) ∧
    (∀ (m : MultiAssignmentStatement) (tid : Nat),
      m.resolved_table = some tid → (p.tableD tid).node = n →
      (∀ o ∈ m.resolved_pk_fields, o.isSome = true) →
      (∀ x ∈ m.assignments, x.resolved_field.isSome = true) →
      (∀ o ∈ m.resolved_pk_fields, ∀ pk, o = some pk → pk ∈ (p.tableD tid).primary_keys) →
      ((p.tableD tid).primary_keys.length ≠ m.resolved_pk_fields.length →
        checkMultiAssignment p ctx fuel m =
          (checkPkFields p ctx fuel (p.tableD tid) m.resolved_pk_fields m.pk_exprs).1 ++
            [AstError.ParseError (pkCountMsg (p.tableD tid).name
              (p.tableD tid).primary_keys.length m.resolved_pk_fields.length)]) ∧
      ((p.tableD tid).primary_keys.length = m.resolved_pk_fields.length →
        checkMultiAssignment p ctx fuel m =
          (checkPkFields p ctx fuel (p.tableD tid) m.resolved_pk_fields m.pk_exprs).1 ++
            checkMultiAssignList p ctx fuel m.assignments)) ∧
    (∀ (eid tid ffid : Nat) (tnm : String) (pkf : List String) (pke : List Nat)
        (fnm : String) (rpk : List (Option Nat)) (rty : Option TypeName),
      (p.exprD eid).node =
        .TableFieldAccess tnm pkf pke fnm (some tid) rpk (some ffid) rty →
      (p.tableD tid).node = n →
      (∀ o ∈ rpk, o.isSome = true) →
      (∀ o ∈ rpk, ∀ pk, o = some pk → pk ∈ (p.tableD tid).primary_keys) →
      ((p.tableD tid).primary_keys.length ≠ rpk.length →
        checkExpression p ctx (fuel + 1) eid =
          (checkExpressionList p ctx fuel pke ++
            [AstError.ParseError (pkCountMsg (p.tableD tid).name
              (p.tableD tid).primary_keys.length rpk.length)], none)) ∧
      ((p.tableD tid).primary_keys.length = rpk.length →
        checkExpression p ctx (fuel + 1) eid =
          (checkExpressionList p ctx fuel pke, some (p.fieldD ffid).field_type))) := by
  refine ⟨?_, ?_, ?_⟩
  · intro a tid fid hrt hown hrf hall hvalid
    have hbody := checkAssignment_own_eq p ctx fuel a tid n hcn hrt hown
    have hgate : decide (∀ o ∈ a.resolved_pk_fields, o.isSome = true) = true :=
      decide_eq_true hall
    rcases hpk : checkPkFields p ctx fuel (p.tableD tid) a.resolved_pk_fields a.pk_exprs
      with ⟨errs, b⟩
    have hb : b = false := by
      have h2 := checkPkFields_no_stop p ctx fuel (p.tableD tid)
        a.resolved_pk_fields a.pk_exprs hvalid
      rw [hpk] at h2
      exact h2
    subst hb
    constructor
    · intro hne
      rw [hbody]
      unfold checkAssignmentBody
      rw [hrf, hgate]
      simp only []
      rw [hpk]
      simp only []
      rw [if_pos hne]
    · intro heq
      rw [hbody]
      unfold checkAssignmentBody
      rw [hrf, hgate]
      simp only []
      rw [hpk]
      simp only []
      rw [if_neg (by simp [heq])]
      rcases hrhs : checkExpression p ctx fuel a.rhs with ⟨rerrs, oty⟩
      have h3 : rhsCheckErrs p ctx fuel fid a.rhs =
          (match (rerrs, oty) with
           | (rerrs2, some rhs_type) =>
             rerrs2 ++
               (if typesCompatible (p.fieldD fid).field_type rhs_type then []
                else [AstError.TypeMismatch (p.fieldD fid).field_type rhs_type])
           | (rerrs2, none) => rerrs2) := by
        simp only [rhsCheckErrs, hrhs]
      rw [h3]
      rcases oty with _ | ty
      · rfl
      · simp only []
        rw [List.append_assoc]
  · intro m tid hrt hown hall hfields hvalid
    have hbody := checkMultiAssignment_own_eq p ctx fuel m tid n hcn hrt hown
    have hgate : ((m.resolved_pk_fields.all fun o => o.isSome) &&
        (m.assignments.all fun a => a.resolved_field.isSome)) = true := by
      rw [Bool.and_eq_true]
      exact ⟨List.all_eq_true.mpr hall, List.all_eq_true.mpr hfields⟩
    rcases hpk : checkPkFields p ctx fuel (p.tableD tid) m.resolved_pk_fields m.pk_exprs
      with ⟨errs, b⟩
    have hb : b = false := by
      have h2 := checkPkFields_no_stop p ctx fuel (p.tableD tid)
        m.resolved_pk_fields m.pk_exprs hvalid
      rw [hpk] at h2
      exact h2
    subst hb
    constructor
    · intro hne
      rw [hbody]
      unfold checkMultiAssignmentBody
      rw [if_pos hgate, hpk]
      simp only []
      rw [if_pos hne]
    · intro heq
      rw [hbody]
      unfold checkMultiAssignmentBody
      rw [if_pos hgate, hpk]
      simp only []
      rw [if_neg (by simp [heq])]
  · intro eid tid ffid tnm pkf pke fnm rpk rty hk hown hall hvalid
    have hbody := checkExpression_tfa_own_eq p ctx fuel eid tnm pkf pke fnm tid rpk
      (some ffid) rty n hk hcn hown
    have htail0 : ¬ ¬ (∀ o ∈ rpk, o.isSome = true) := not_not_intro hall
    constructor
    · intro hne
      rw [hbody]
      unfold checkTableFieldAccessTail
      rw [if_neg htail0, firstInvalidPk_none (p.tableD tid) rpk hvalid]
      simp only []
      rw [if_pos hne]
    · intro heq
      rw [hbody]
      unfold checkTableFieldAccessTail
      rw [if_neg htail0, firstInvalidPk_none (p.tableD tid) rpk hvalid]
      simp only []
      rw [if_neg (by simp [heq])]
      simp

/-- Witness for C5 at spec scenario 5: `T` declares two primary keys,
`T[k1=1].v = 2;` provides one valid key, and the arity `ParseError` is
reported. -/
theorem c5_pk_arity_characterization_witness :
    checkAssignment c5good c5ctx 9 c5goodAssign =
      (checkPkFields c5good c5ctx 9 (c5good.tableD 0) c5goodAssign.resolved_pk_fields
        c5goodAssign.pk_exprs).1 ++
        [AstError.ParseError (pkCountMsg (c5good.tableD 0).name
          (c5good.tableD 0).primary_keys.length c5goodAssign.resolved_pk_fields.length)] :=
  ((c5_pk_arity_characterization c5good c5ctx 9 0 rfl).1 c5goodAssign 0 2 rfl (by decide)
    rfl (by decide) (by decide)).1 (by decide)

/-- Counterexample to C5 as stated: in `c5prog` the table and every
name resolve and only one of two primary keys is provided, yet the
analyzer reports only `InvalidPrimaryKey` (the provided key resolves to
the non-primary field `v`), never the arity `ParseError`. -/
theorem c5_count_mismatch_preempted_cex :
    analyzeProgramErrors c5prog = [AstError.InvalidPrimaryKey "T" "v"] ∧
    (analyzeProgramErrors c5prog).contains
      (AstError.ParseError (pkCountMsg "T" 2 1)) = false := by
  constructor
  · decide
  · decide

/-! ## Builder lemmas (C4, C8) -/

theorem buildNodeList_lookup_isSome :
    ∀ (names : List String) (p : Program) (name : String),
      (name ∈ names ∨ (p.node_map.lookup name).isSome = true) →
      (((buildNodeList p names).node_map.lookup name).isSome = true) := by
  intro names
  induction names with
  | nil =>
    intro p name h
    rcases h with h | h
    · simp at h
    · simpa [buildNodeList] using h
  | cons nm rest ih =>
    intro p name h
    simp only [buildNodeList]
    apply ih
    by_cases hn : name = nm
    · right
      subst hn
      simp [mapInsert_lookup_self]
    · rcases h with h | h
      · rcases List.mem_cons.mp h with h2 | h2
        · exact absurd h2 hn
        · exact Or.inl h2
      · right
        simpa [mapInsert_lookup_ne _ _ _ _ hn] using h

theorem buildFieldList_node_map (fs : List FieldSrc) :
    ∀ p : Program, (buildFieldList p fs).1.node_map = p.node_map := by
  induction fs with
  | nil => intro p; rfl
  | cons f rest ih =>
    intro p
    simp only [buildFieldList]
    exact ih _

theorem buildFieldList_primaries_empty (fs : List FieldSrc) :
    ∀ p : Program,
      ((buildFieldList p fs).2.2.isEmpty = true ↔ ∀ f ∈ fs, f.is_primary = false) := by
  induction fs with
  | nil => intro p; simp [buildFieldList]
  | cons f rest ih =>
    intro p
    simp only [buildFieldList]
    by_cases hp : f.is_primary = true
    · rw [if_pos hp]
      simp only [List.isEmpty_cons]
      constructor
      · intro h; exact absurd h (by simp)
      · intro h
        exact absurd hp (by simp [h f (List.mem_cons_self _ _)])
    · rw [if_neg hp]
      rw [ih]
      constructor
      · intro h g hg
        rcases List.mem_cons.mp hg with h2 | h2
        · subst h2; simpa using hp
        · exact h g h2
      · intro h g hg
        exact h g (List.mem_cons_of_mem _ hg)

theorem buildTableDeclaration_node_map (p : Program) (t : TableSrc) :
    (buildTableDeclaration p t).1.node_map = p.node_map := by
  unfold buildTableDeclaration
  split
  · rfl
  · simp only []
    split
    · exact buildFieldList_node_map t.fields p
    · simp only [allocTable]
      exact buildFieldList_node_map t.fields p

theorem buildTablesPass_mem :
    ∀ (tables : List TableSrc) (p : Program) (t : TableSrc),
      t ∈ tables →
      ((p.node_map.lookup t.node_name).isSome = true) →
      (∀ f ∈ t.fields, f.is_primary = false) →
      AstError.ParseError ("Table " ++ t.name ++ " must have at least one primary key") ∈
        (buildTablesPass p tables).2 := by
  intro tables
  induction tables with
  | nil => intro p t h; simp at h
  | cons t0 rest ih =>
    intro p t hmem hlk hnp
    simp only [buildTablesPass]
    rw [List.mem_append]
    rcases List.mem_cons.mp hmem with h2 | h2
    · subst h2
      left
      unfold buildTableDeclaration
      rcases hl : p.node_map.lookup t.node_name with _ | node_id
      · rw [hl] at hlk; simp at hlk
      · simp only []
        rw [if_pos ((buildFieldList_primaries_empty t.fields p).mpr hnp)]
        simp
    · right
      apply ih _ t h2 _ hnp
      rw [buildTableDeclaration_node_map]
      exact hlk

/-- C4 (amended).  A table declaration whose owning node is declared and
none of whose fields carries the `primary` flag makes `parse_and_build`
fail, with `ParseError("Table T must have at least one primary key")` in
the error list; no `Program` is produced.  (When the owning node is
itself undeclared, `UndeclaredNode` preempts the primary-key check - see
the counterexample.) -/
theorem c4_zero_pk_table_reported (src : SourceProgram) (t : TableSrc)
    (hmem : t ∈ src.tables) (hnode : t.node_name ∈ src.nodes)
    (hnp : ∀ f ∈ t.fields, f.is_primary = false) :
    ∃ errs, buildProgram src = Except.error errs ∧
      AstError.ParseError ("Table " ++ t.name ++ " must have at least one primary key") ∈
        errs := by
  have hlk : (((buildNodeList Program.empty src.nodes).node_map.lookup t.node_name).isSome
      = true) :=
    buildNodeList_lookup_isSome src.nodes Program.empty t.node_name (Or.inl hnode)
  have hm := buildTablesPass_mem src.tables (buildNodeList Program.empty src.nodes) t hmem
    hlk hnp
  unfold buildProgram
  simp only []
  rcases h2 : (buildTablesPass (buildNodeList Program.empty src.nodes) src.tables).2
    with _ | ⟨e, rest⟩
  · rw [h2] at hm
    simp at hm
  · rw [h2] at hm
    exact ⟨e :: rest, rfl, hm⟩

/-- Witness for C4: `nodes: A; table T on A { int v; }` produces the
primary-key `ParseError`. -/
theorem c4_zero_pk_table_reported_witness :
    ∃ errs, buildProgram c4oksrc = Except.error errs ∧
      AstError.ParseError "Table T must have at least one primary key" ∈ errs :=
  c4_zero_pk_table_reported c4oksrc
    { name := "T", node_name := "A",
      fields := [{ is_primary := false, field_type := .Int, field_name := "v" }] }
    (by decide) (by decide) (by decide)

/-- Counterexample to C4 as stated: `nodes: A; table T on Z { int v; }`
has a zero-primary-key table, but because its owning node `Z` is
undeclared only `UndeclaredNode` is reported - the primary-key
`ParseError` never appears in the list. -/
theorem c4_zero_pk_masked_by_undeclared_node_cex :
    buildProgram c4cexsrc = Except.error [AstError.UndeclaredNode "Z"] ∧
    ([AstError.UndeclaredNode "Z"].contains
      (AstError.ParseError "Table T must have at least one primary key")) = false := by
  constructor
  · rfl
  · decide

/-! ## Duplicate node names (C8) -/

/-- C8 is a code bug: `build_node_list` performs no duplicate check.  On
`nodes: A, A;` it allocates two `NodeDef`s, lets the second `node_map`
insert overwrite the first, and `parse_and_build` returns a `Program`
with no error - the spec (sections 4.2 and 7, `DuplicateNode`) requires
the build to fail. -/
theorem c8_duplicate_nodes_accepted_bug :
    buildProgram c8src = Except.ok c8built := by
  rfl

/-! ## Type inference slots (C6) -/

theorem setSlot_isUB (e : Expression) (ty : TypeName) :
    isUnaryOrBinary (setResolvedTypeSlot e ty) = isUnaryOrBinary e := by
  rcases e with ⟨k⟩
  cases k <;> rfl

theorem setSlot_slot (e : Expression) (ty : TypeName)
    (h : isUnaryOrBinary e = true) :
    getResolvedTypeSlot (setResolvedTypeSlot e ty) = some ty := by
  rcases e with ⟨k⟩
  cases k <;> first | rfl | (simp [isUnaryOrBinary] at h)

theorem setSlot_setSlot (e : Expression) (ty ty2 : TypeName) :
    setResolvedTypeSlot (setResolvedTypeSlot e ty2) ty = setResolvedTypeSlot e ty := by
  rcases e with ⟨k⟩
  cases k <;> rfl

theorem isUB_lt (p : Program) (i : Nat) (h : isUnaryOrBinary (p.exprD i) = true) :
    i < p.expressions.length := by
  by_contra hge
  rw [Program.exprD, List.getD_eq_default p.expressions default (by omega)] at h
  simp [default, isUnaryOrBinary] at h

theorem exprEvolves_refl (p : Program) : exprEvolves p p :=
  ⟨rfl, fun _ => Or.inl rfl⟩

theorem exprEvolves_trans {p q r : Program} (h1 : exprEvolves p q)
    (h2 : exprEvolves q r) : exprEvolves p r := by
  obtain ⟨hl1, h1⟩ := h1
  obtain ⟨hl2, h2⟩ := h2
  refine ⟨hl2.trans hl1, ?_⟩
  intro j
  rcases h1 j with hq | ⟨hub, hslot, ty, hq⟩
  · rcases h2 j with hr | ⟨hub2, hslot2, ty2, hr⟩
    · left; rw [hr, hq]
    · right
      rw [hq] at hub2 hslot2 hr
      exact ⟨hub2, hslot2, ty2, hr⟩
  · rcases h2 j with hr | ⟨hub2, hslot2, ty2, hr⟩
    · right
      refine ⟨hub, hslot, ty, ?_⟩
      rw [hr, hq]
    · exfalso
      rw [hq, setSlot_slot _ ty hub] at hslot2
      exact Option.noConfusion hslot2

theorem exprEvolves_kind {p q : Program} (h : exprEvolves p q) (j : Nat) :
    isUnaryOrBinary (q.exprD j) = isUnaryOrBinary (p.exprD j) := by
  rcases h.2 j with hq | ⟨hub, hslot, ty, hq⟩
  · rw [hq]
  · rw [hq, setSlot_isUB]

theorem exprEvolves_slot_isSome {p q : Program} (h : exprEvolves p q) (j : Nat)
    (hs : (getResolvedTypeSlot (p.exprD j)).isSome = true) :
    (getResolvedTypeSlot (q.exprD j)).isSome = true := by
  rcases h.2 j with hq | ⟨hub, hslot, ty, hq⟩
  · rw [hq]; exact hs
  · rw [hslot] at hs
    simp at hs

theorem writeResolvedType_exprD_ne (p : Program) (i : Nat) (ty : TypeName)
    (j : Nat) (hne : j ≠ i) : (writeResolvedType p i ty).exprD j = p.exprD j := by
  rw [writeResolvedType]
  show (p.expressions.set i _).getD j default = p.expressions.getD j default
  simp [List.getD, List.getElem?_set_ne (Ne.symm hne)]

theorem writeResolvedType_exprD_self (p : Program) (i : Nat) (ty : TypeName)
    (hi : i < p.expressions.length) :
    (writeResolvedType p i ty).exprD i = setResolvedTypeSlot (p.exprD i) ty := by
  rw [writeResolvedType]
  show (p.expressions.set i _).getD i default = _
  simp [List.getD, List.getElem?_set_self, hi, Program.exprD]

theorem exprEvolves_write {p q : Program} (h : exprEvolves p q) (i : Nat)
    (ty : TypeName) (hub : isUnaryOrBinary (p.exprD i) = true)
    (hslot : getResolvedTypeSlot (p.exprD i) = none) :
    exprEvolves p (writeResolvedType q i ty) := by
  have hlen : (writeResolvedType q i ty).expressions.length = q.expressions.length := by
    rw [writeResolvedType]
    exact List.length_set q.expressions i _
  refine ⟨hlen.trans h.1, ?_⟩
  intro j
  by_cases hij : j = i
  · subst hij
    have hjlt : j < q.expressions.length := by
      rw [h.1]
      exact isUB_lt p j hub
    rw [writeResolvedType_exprD_self q j ty hjlt]
    rcases h.2 j with hq | ⟨hub2, hslot2, ty2, hq⟩
    · right
      refine ⟨hub, hslot, ty, ?_⟩
      rw [hq]
    · right
      refine ⟨hub, hslot, ty, ?_⟩
      rw [hq, setSlot_setSlot]
  · rw [writeResolvedType_exprD_ne q i ty j hij]
    exact h.2 j

theorem inferExpressionType_evolves :
    ∀ (fuel : Nat) (p : Program) (eid : Nat),
      exprEvolves p (inferExpressionType p fuel eid).1 := by
  intro fuel
  induction fuel with
  | zero => intro p eid; exact exprEvolves_refl p
  | succ fuel ih =>
    intro p eid
    rw [inferExpressionType]
    split
    · exact exprEvolves_refl p
    · rename_i heq
      cases hk : (p.exprD eid).node with
      | Ident nm => exact exprEvolves_refl p
      | IntLit v => exact exprEvolves_refl p
      | FloatLit => exact exprEvolves_refl p
      | StringLit v => exact exprEvolves_refl p
      | BoolLit v => exact exprEvolves_refl p
      | TableFieldAccess tnm pkf pke fnm rtab rpk rf rty =>
        rcases rf with _ | fid
        · simp only []
          exact exprEvolves_refl p
        · exfalso
          rw [getExpressionType, hk] at heq
          rcases rty with _ | ty0
          · simp at heq
          · simp at heq
      | UnaryOp op inner rty =>
        simp only []
        have hub : isUnaryOrBinary (p.exprD eid) = true := by
          rw [isUnaryOrBinary, hk]
        have hslot : getResolvedTypeSlot (p.exprD eid) = none := by
          rw [getExpressionType, hk] at heq
          rw [getResolvedTypeSlot, hk]
          exact heq
        exact exprEvolves_write (ih p inner) eid _ hub hslot
      | BinaryOp lid op rid rty =>
        simp only []
        have hub : isUnaryOrBinary (p.exprD eid) = true := by
          rw [isUnaryOrBinary, hk]
        have hslot : getResolvedTypeSlot (p.exprD eid) = none := by
          rw [getExpressionType, hk] at heq
          rw [getResolvedTypeSlot, hk]
          exact heq
        exact exprEvolves_write
          (exprEvolves_trans (ih p lid) (ih (inferExpressionType p fuel lid).1 rid))
          eid _ hub hslot

theorem inferExpressionType_writes (fuel : Nat) (p : Program) (i : Nat)
    (hub : isUnaryOrBinary (p.exprD i) = true) :
    (getResolvedTypeSlot ((inferExpressionType p (fuel + 1) i).1.exprD i)).isSome
      = true := by
  rw [inferExpressionType]
  split
  · rename_i existing heq
    rw [getExpressionType] at heq
    cases hk : (p.exprD i).node with
    | Ident nm => simp [isUnaryOrBinary, hk] at hub
    | IntLit v => simp [isUnaryOrBinary, hk] at hub
    | FloatLit => simp [isUnaryOrBinary, hk] at hub
    | StringLit v => simp [isUnaryOrBinary, hk] at hub
    | BoolLit v => simp [isUnaryOrBinary, hk] at hub
    | TableFieldAccess tnm pkf pke fnm rtab rpk rf rty =>
      simp [isUnaryOrBinary, hk] at hub
    | UnaryOp op inner rty =>
      rw [hk] at heq
      simp only [] at heq
      rw [getResolvedTypeSlot, hk]
      simp only []
      rw [heq]
      rfl
    | BinaryOp lid op rid rty =>
      rw [hk] at heq
      simp only [] at heq
      rw [getResolvedTypeSlot, hk]
      simp only []
      rw [heq]
      rfl
  · rename_i heq
    cases hk : (p.exprD i).node with
    | Ident nm => simp [isUnaryOrBinary, hk] at hub
    | IntLit v => simp [isUnaryOrBinary, hk] at hub
    | FloatLit => simp [isUnaryOrBinary, hk] at hub
    | StringLit v => simp [isUnaryOrBinary, hk] at hub
    | BoolLit v => simp [isUnaryOrBinary, hk] at hub
    | TableFieldAccess tnm pkf pke fnm rtab rpk rf rty =>
      simp [isUnaryOrBinary, hk] at hub
    | UnaryOp op inner rty =>
      simp only []
      have hev := inferExpressionType_evolves fuel p inner
      have hlt : i < (inferExpressionType p fuel inner).1.expressions.length := by
        rw [hev.1]
        exact isUB_lt p i hub
      rw [writeResolvedType_exprD_self _ i _ hlt]
      rw [setSlot_slot]
      · simp
      · rw [exprEvolves_kind hev i]
        exact hub
    | BinaryOp lid op rid rty =>
      simp only []
      have hev := exprEvolves_trans (inferExpressionType_evolves fuel p lid)
        (inferExpressionType_evolves fuel (inferExpressionType p fuel lid).1 rid)
      have hlt : i <
          (inferExpressionType (inferExpressionType p fuel lid).1 fuel rid).1.expressions.length := by
        rw [hev.1]
        exact isUB_lt p i hub
      rw [writeResolvedType_exprD_self _ i _ hlt]
      rw [setSlot_slot]
      · simp
      · rw [exprEvolves_kind hev i]
        exact hub

theorem runInferPass_evolves (fuel : Nat) :
    ∀ (ids : List Nat) (p : Program), exprEvolves p (runInferPass fuel p ids).1 := by
  intro ids
  induction ids with
  | nil => intro p; exact exprEvolves_refl p
  | cons id rest ih =>
    intro p
    simp only [runInferPass]
    exact exprEvolves_trans (inferExpressionType_evolves fuel p id)
      (ih (inferExpressionType p fuel id).1)

theorem runInferPass_covers (fuel : Nat) :
    ∀ (ids : List Nat) (p : Program) (i : Nat), i ∈ ids →
      isUnaryOrBinary (p.exprD i) = true →
      (getResolvedTypeSlot ((runInferPass (fuel + 1) p ids).1.exprD i)).isSome = true := by
  intro ids
  induction ids with
  | nil => intro p i h; simp at h
  | cons id rest ih =>
    intro p i hmem hub
    simp only [runInferPass]
    rcases List.mem_cons.mp hmem with h2 | h2
    · subst h2
      have h3 := inferExpressionType_writes fuel p i hub
      exact exprEvolves_slot_isSome
        (runInferPass_evolves (fuel + 1) rest (inferExpressionType p (fuel + 1) i).1) i h3
    · apply ih _ i h2
      rw [exprEvolves_kind (inferExpressionType_evolves (fuel + 1) p id) i]
      exact hub

theorem inferTypesLoop_evolves (fuel : Nat) (ids : List Nat) :
    ∀ (passes : Nat) (p : Program), exprEvolves p (inferTypesLoop fuel ids p passes) := by
  intro passes
  induction passes with
  | zero => intro p; exact exprEvolves_refl p
  | succ passes ih =>
    intro p
    rw [inferTypesLoop]
    split
    · exact exprEvolves_trans (runInferPass_evolves fuel ids p) (ih _)
    · exact runInferPass_evolves fuel ids p

theorem inferTypes_evolves (p : Program) : exprEvolves p (inferTypes p) := by
  rw [inferTypes]
  exact inferTypesLoop_evolves _ _ 3 p

theorem inferTypes_covers (p : Program) (i : Nat)
    (hub : isUnaryOrBinary (p.exprD i) = true) :
    (getResolvedTypeSlot ((inferTypes p).exprD i)).isSome = true := by
  rw [inferTypes, inferTypesLoop]
  have hmem : i ∈ List.range p.expressions.length :=
    List.mem_range.mpr (isUB_lt p i hub)
  have hfuel : inferFuel p = p.expressions.length + 1 := rfl
  have hpass : (getResolvedTypeSlot
      ((runInferPass (inferFuel p) p (List.range p.expressions.length)).1.exprD i)).isSome
      = true := by
    rw [hfuel]
    exact runInferPass_covers p.expressions.length (List.range p.expressions.length) p i
      hmem hub
  split
  · exact exprEvolves_slot_isSome (inferTypesLoop_evolves _ _ 2 _) i hpass
  · exact hpass

theorem leaf_not_UB (e : Expression) (h : isLeafExpr e = true) :
    isUnaryOrBinary e = false := by
  rcases e with ⟨k⟩
  cases k <;> simp [isLeafExpr, isUnaryOrBinary] at h ⊢

theorem tfa_not_UB (e : Expression) (h : isTFAExpr e = true) :
    isUnaryOrBinary e = false := by
  rcases e with ⟨k⟩
  cases k <;> simp [isTFAExpr, isUnaryOrBinary] at h ⊢

/-- C6 (corrected).  After `analyze_program_with_types` succeeds, every
unary-op and binary-op expression has `resolved_type = Some(_)`, and
literal and identifier expressions are not mutated.  Table-field-access
expressions, however, are also left entirely unchanged: their
`resolved_type` slot is never written (on success every reachable access
has `resolved_field` set, so `get_expression_type` answers before
`infer_expression_type` reaches its write), contrary to the claim. -/
theorem c6_inference_annotates_ops (p q : Program)
    (hok : analyzeProgramWithTypes p = Except.ok q) :
    (∀ i, isUnaryOrBinary (p.exprD i) = true →
      (getResolvedTypeSlot (q.exprD i)).isSome = true) ∧
    (∀ i, isLeafExpr (p.exprD i) = true → q.exprD i = p.exprD i) ∧
    (∀ i, isTFAExpr (p.exprD i) = true → q.exprD i = p.exprD i) := by
  have hq : q = inferTypes p := by
    rw [analyzeProgramWithTypes] at hok
    rcases herr : analyzeProgramErrors p with _ | ⟨e, rest⟩
    · rw [herr] at hok
      simp at hok
      exact hok.symm
    · rw [herr] at hok
      simp at hok
  subst hq
  refine ⟨?_, ?_, ?_⟩
  · intro i hub
    exact inferTypes_covers p i hub
  · intro i hleaf
    rcases (inferTypes_evolves p).2 i with hq2 | ⟨hub, hslot, ty, hq2⟩
    · exact hq2
    · rw [leaf_not_UB _ hleaf] at hub
      exact Bool.noConfusion hub
  · intro i htfa
    rcases (inferTypes_evolves p).2 i with hq2 | ⟨hub, hslot, ty, hq2⟩
    · exact hq2
    · rw [tfa_not_UB _ htfa] at hub
      exact Bool.noConfusion hub

/-- Witness for C6 at a program declaring `int x = 1 + 2;`: the binary
expression (id 2) has its slot filled after successful inference. -/
theorem c6_inference_annotates_ops_witness :
    (getResolvedTypeSlot ((inferTypes c6binprog).exprD 2)).isSome = true := by
  have h := c6_inference_annotates_ops c6binprog (inferTypes c6binprog) rfl
  exact h.1 2 (by decide)

/-- Counterexample to C6 as stated: `c6prog` reads `T[k=7].v` and passes
analysis, yet after type inference the table-field-access expression
(id 1) still has `resolved_type = none`. -/
theorem c6_tfa_slot_left_none_cex :
    analyzeProgramErrors c6prog = [] ∧
    getResolvedTypeSlot ((inferTypes c6prog).exprD 1) = none := by
  constructor
  · decide
  · decide

end FMitF
